import Mathlib

/-!
Verification development for the UnderPressurePH7/Widget_2.0 stats widget.

The source is JavaScript; we shallowly embed the relevant functions over a
model `JVal` of JSON-transportable JavaScript values.  `null` and `undefined`
are identified as `JVal.null` (both are absorbed the same way by the `||`,
`?.` and `??` operators used in this code base, and JSON payloads cannot
distinguish them).  JavaScript numbers are modelled as `Option Int`: `some n`
is the integer `n`, `none` is `NaN`.  Fractional values do not occur in the
modelled statistics (damage, kills, points, durations and team ids are
integers), so the integer model is adequate.
-/

inductive JVal : Type where
  | null : JVal
  | bool : Bool → JVal
  | num : Option Int → JVal
  | str : String → JVal
  | obj : List (String × JVal) → JVal
  | arr : List JVal → JVal
deriving Repr

namespace JS

/-- Association-list lookup, first occurrence wins (JS objects have unique
keys, so for real payloads this is plain key lookup). -/
def lookupA {α : Type} : List (String × α) → String → Option α
  | [], _ => none
  | (k, v) :: rest, key => if k = key then some v else lookupA rest key

/-- JS object property assignment `o[k] = v`: replaces the value in place if
the key is present, otherwise appends (JS objects keep insertion order). -/
def oset {α : Type} : List (String × α) → String → α → List (String × α)
  | [], key, val => [(key, val)]
  | (k, v) :: rest, key, val =>
      if k = key then (k, val) :: rest else (k, v) :: oset rest key val

def containsKey {α : Type} (l : List (String × α)) (k : String) : Bool :=
  (lookupA l k).isSome

/-- All keys distinct (true of every real JS object). -/
def keysNodup {α : Type} : List (String × α) → Bool
  | [] => true
  | (k, _) :: rest => !(containsKey rest k) && keysNodup rest

/-- JS truthiness.  `NaN`, `0`, the empty string, `null`/`undefined` and
`false` are falsy; objects and arrays are always truthy. -/
def truthy : JVal → Bool
  | .null => false
  | .bool b => b
  | .num none => false
  | .num (some n) => n != 0
  | .str s => s != ""
  | .obj _ => true
  | .arr _ => true

/-- `typeof v === 'object'` (true for objects, arrays and, notoriously, for
`null`). -/
def typeofObject : JVal → Bool
  | .null => true
  | .obj _ => true
  | .arr _ => true
  | _ => false

def isNull : JVal → Bool
  | .null => true
  | _ => false

/-- `String(v)` / property-key coercion for the values this code base uses as
keys (numbers and strings; the remaining cases follow JS except that array
element joining is elided, arrays are never used as keys here). -/
def jsToString : JVal → String
  | .null => "null"
  | .bool b => if b then "true" else "false"
  | .num none => "NaN"
  | .num (some n) => toString n
  | .str s => s
  | .obj _ => "[object Object]"
  | .arr _ => ""

/-- Property access `v[k]`.  `none` means a thrown `TypeError` (access on
`null`/`undefined`); access on other primitives yields `undefined`. -/
def getField : JVal → String → Option JVal
  | .null, _ => none
  | .obj fs, k => some ((lookupA fs k).getD .null)
  | .arr xs, k =>
      some (match k.toNat? with
            | some i => (xs.get? i).getD .null
            | none => .null)
  | _, _ => some .null

/-- Total property access, only used where the receiver is known non-null
(after a guard or a preceding access) or where the source uses `?.`. -/
def getFieldD (v : JVal) (k : String) : JVal :=
  (getField v k).getD .null

/-- Property access in the `Except` monad; errors exactly when JS throws
(`TypeError` reading a property of `null`/`undefined`). -/
def jget (v : JVal) (k : String) : Except Unit JVal :=
  match getField v k with
  | some x => .ok x
  | none => .error ()

/-- `a || b`. -/
def jsOr (a b : JVal) : JVal := if truthy a then a else b

/-- `a ?? b` (only `null`/`undefined` fall through). -/
def jsNullish (a b : JVal) : JVal := if isNull a then b else a

/-- Strict equality `===`.  `NaN === NaN` is false.  Objects and arrays
compare by reference; distinct syntactic occurrences in the modelled code are
distinct references, so they are modelled as never equal. -/
def jsStrictEq : JVal → JVal → Bool
  | .null, .null => true
  | .bool a, .bool b => a == b
  | .num (some a), .num (some b) => a == b
  | .str a, .str b => a == b
  | _, _ => false

/-- `Object.entries(v)` (also used for `for...in`): own enumerable entries of
an object, indexed characters of a string, indexed elements of an array,
empty for other primitives. -/
def entries : JVal → List (String × JVal)
  | .obj fs => fs
  | .str s => (s.toList.enum).map (fun p => (toString p.1, JVal.str (String.mk [p.2])))
  | .arr xs => (xs.enum).map (fun p => (toString p.1, p.2))
  | _ => []

/-- Addition on JS numbers (`NaN` absorbs). -/
def nadd : Option Int → Option Int → Option Int
  | some a, some b => some (a + b)
  | _, _ => none

/-- Multiplication on JS numbers (`NaN` absorbs). -/
def nmul : Option Int → Option Int → Option Int
  | some a, some b => some (a * b)
  | _, _ => none

/-- `Math.max` on JS numbers (`NaN` absorbs). -/
def nmax : Option Int → Option Int → Option Int
  | some a, some b => some (max a b)
  | _, _ => none

/-- Decimal digit-string value, `none` if any character is not a digit or
the list is empty. -/
def decDigits (cs : List Char) : Option Nat :=
  if cs = [] then none
  else if cs.all Char.isDigit then
    some (cs.foldl (fun a c => a * 10 + (c.toNat - 48)) 0)
  else none

/-- `ToNumber` on a string: the empty string is `0`, decimal and
negated-decimal strings parse, everything else is `NaN` (whitespace, float
and hex forms, which this code base never produces as stat values or keys,
are conservatively `NaN`). -/
def strToNumber (s : String) : Option Int :=
  match s.toList with
  | [] => some 0
  | '-' :: rest => (decDigits rest).map (fun n => -(n : Int))
  | cs => (decDigits cs).map (fun n => (n : Int))

/-- `ToNumber` coercion, on the integer fragment: non-numeric strings and
most objects coerce to `NaN`; `null`, `false` and the empty string to `0`. -/
def toNumber : JVal → Option Int
  | .null => some 0
  | .bool b => some (if b then 1 else 0)
  | .num n => n
  | .str s => strToNumber s
  | .obj _ => none
  | .arr [] => some 0
  | .arr [x] =>
      (match x with
       | .null => some 0
       | .bool b => some (if b then 1 else 0)
       | .num n => n
       | .str s => strToNumber s
       | _ => none)
  | .arr _ => none

/-- `Math.max(a, b)` on arbitrary values (both coerced with `ToNumber`). -/
def jsMax (a b : JVal) : JVal := .num (nmax (toNumber a) (toNumber b))

/-- `ToPrimitive` for `+`: objects and arrays become their string form. -/
def toPrimitive : JVal → JVal
  | .obj fs => .str (jsToString (.obj fs))
  | .arr xs => .str (jsToString (.arr xs))
  | v => v

/-- Binary `+`: string concatenation if either primitive operand is a string,
numeric addition otherwise. -/
def jsAdd (a b : JVal) : JVal :=
  match toPrimitive a, toPrimitive b with
  | .str s, w => .str (s ++ jsToString w)
  | w, .str s => .str (jsToString w ++ s)
  | w₁, w₂ => .num (nadd (toNumber w₁) (toNumber w₂))

/-- Binary `*` (always numeric). -/
def jsMul (a b : JVal) : JVal := .num (nmul (toNumber a) (toNumber b))

/-- `a < b`: lexicographic for two strings, numeric otherwise, false whenever
a `NaN` is involved. -/
def jsLt (a b : JVal) : Bool :=
  match a, b with
  | .str s, .str t => s < t
  | _, _ =>
      match toNumber a, toNumber b with
      | some x, some y => x < y
      | _, _ => false

/-- `a > b`. -/
def jsGt (a b : JVal) : Bool :=
  match a, b with
  | .str s, .str t => t < s
  | _, _ =>
      match toNumber a, toNumber b with
      | some x, some y => y < x
      | _, _ => false

end JS

open JS

/-- A player's per-battle record as stored in `BattleStats[arenaId].players`.
Fields are raw JS values: the code writes coerced numbers on most paths but
raw payload values on some. -/
structure Player : Type where
  name : JVal
  damage : JVal
  kills : JVal
  points : JVal
  vehicle : JVal
deriving Repr

/-- One battle record, keyed by arena id in `BattleStats`. -/
structure Battle : Type where
  startTime : JVal
  duration : JVal
  win : JVal
  mapName : JVal
  players : List (String × Player)
deriving Repr

/-- The store part of the state: `this.BattleStats` and `this.PlayersInfo`. -/
structure St : Type where
  battleStats : List (String × Battle)
  playersInfo : List (String × JVal)
deriving Repr

namespace CoreService

/-! Embedding of `handleServerData` from `src/scripts/coreService.js`
(lines 87-175).  `ppf` is `GAME_POINTS.POINTS_PER_FRAG` (declared in
`constants.js`, which is not part of the sources; it is kept abstract as a
parameter).  `now` is the value of `Date.now()`. -/

/-- The envelope unwrap applied to battle and player records:
`(x && typeof x === 'object' && x._id) ? x._id : x`. -/
def unwrapId (v : JVal) : JVal :=
  if truthy v && typeofObject v && truthy (getFieldD v "_id") then getFieldD v "_id"
  else v

/-- The common shape of the build loops: process an entry's value and store
the result under the entry's key (`normalized[key] = value`). -/
def buildStep {β : Type} (f : String → JVal → Except Unit β)
    (acc : List (String × β)) (e : String × JVal) : Except Unit (List (String × β)) := do
  let v ← f e.1 e.2
  pure (oset acc e.1 v)

/-- The player entries the battle loop iterates over:
`battleData?.players || {}` after the `_id` unwrap. -/
def battlePlayersEntries (battle : JVal) : List (String × JVal) :=
  entries (jsOr (if isNull (unwrapId battle) then .null
                 else getFieldD (unwrapId battle) "players") (.obj []))

/-- Body of the per-player normalization/merge loop (coreService.js lines
99-125).  `exPlayers` is `this.BattleStats?.[arenaId]?.players`, `pinfo` is
`this.PlayersInfo`.  Errors exactly where JS throws: reading `.kills` of a
`null` player record. -/
def processPlayer (ppf : Int) (exPlayers : List (String × Player))
    (pinfo : List (String × JVal)) (pid : String) (playerData : JVal) :
    Except Unit Player := do
  let p := unwrapId playerData
  let kRaw ← jget p "kills"
  let kills : Option Int := match kRaw with | .num j => j | _ => some 0
  let dRaw ← jget p "damage"
  let damage : Option Int := match dRaw with | .num j => j | _ => some 0
  let ptsRaw ← jget p "points"
  let points : Option Int :=
    match ptsRaw with | .num j => j | _ => nadd damage (nmul kills (some ppf))
  match lookupA exPlayers pid with
  | some ep =>
      pure { name := jsOr (getFieldD p "name")
                      (jsOr ep.name (jsOr ((lookupA pinfo pid).getD .null)
                        (.str "Unknown Player"))),
             damage := jsMax (jsOr (.num damage) (.num (some 0)))
                        (jsOr ep.damage (.num (some 0))),
             kills := jsMax (jsOr (.num kills) (.num (some 0)))
                        (jsOr ep.kills (.num (some 0))),
             points := jsMax (jsOr (.num points) (.num (some 0)))
                        (jsOr ep.points (.num (some 0))),
             vehicle := jsOr (getFieldD p "vehicle")
                        (jsOr ep.vehicle (.str "Unknown Vehicle")) }
  | none =>
      pure { name := jsOr (getFieldD p "name")
                      (jsOr ((lookupA pinfo pid).getD .null) (.str "Unknown Player")),
             damage := .num damage,
             kills := .num kills,
             points := .num points,
             vehicle := jsOr (getFieldD p "vehicle") (.str "Unknown Vehicle") }

/-- Body of the per-arena normalization/merge loop (coreService.js lines
94-148).  Reads the pre-call state `σ` throughout, as the JS code does
(`this.BattleStats` is only reassigned after the loop).  Errors exactly where
JS throws: inside the player loop, or reading `.duration` of a `null`
(unwrapped) battle record. -/
def processBattle (ppf : Int) (now : Int) (σ : St) (arenaId : String)
    (battle : JVal) : Except Unit Battle := do
  let battleData := unwrapId battle
  let exB := lookupA σ.battleStats arenaId
  let players ← (battlePlayersEntries battle).foldlM
    (buildStep (processPlayer ppf
      (match lookupA σ.battleStats arenaId with | some b => b.players | none => [])
      σ.playersInfo)) []
  let sDur ← jget battleData "duration"
  let localDuration : JVal :=
    jsNullish (match exB with | some b => b.duration | none => .null) (.num (some 0))
  let serverDuration := jsNullish sDur (.num (some 0))
  let finalDuration := jsMax localDuration serverDuration
  let sWin ← jget battleData "win"
  let localWin : JVal :=
    jsNullish (match exB with | some b => b.win | none => .null) (.num (some (-1)))
  let serverWin : Option Int := match sWin with | .num j => j | _ => some (-1)
  let finalWin : JVal := if serverWin ≠ some (-1) then .num serverWin else localWin
  let exMap : JVal := match exB with | some b => b.mapName | none => .null
  let sMap ← jget battleData "mapName"
  let finalMapName :=
    if truthy exMap && !(jsStrictEq exMap (.str "Unknown Map")) then exMap
    else jsOr sMap (.str "Unknown Map")
  let sStart ← jget battleData "startTime"
  let exStart : JVal := match exB with | some b => b.startTime | none => .null
  let startTime := jsOr sStart (jsOr exStart (.num (some now)))
  pure { startTime := startTime, duration := finalDuration, win := finalWin,
         mapName := finalMapName, players := players }

/-- The loop re-adding local battles the server snapshot did not mention
(coreService.js lines 150-154): `if (!normalized[arenaId]) normalized[arenaId]
= localBattle` (battle records are objects, hence truthy, so the test is
presence). -/
def backfill (bs : List (String × Battle)) (normalized : List (String × Battle)) :
    List (String × Battle) :=
  bs.foldl (fun acc e => if containsKey acc e.1 then acc else oset acc e.1 e.2) normalized

/-- The whole `BattleStats` branch of `handleServerData` (lines 92-157):
normalize-and-merge every server battle, then keep every unmentioned local
battle. -/
def mergeBattleStats (ppf : Int) (now : Int) (σ : St) (battleStats : JVal) :
    Except Unit (List (String × Battle)) := do
  let normalized ← (entries battleStats).foldlM
    (buildStep (processBattle ppf now σ)) []
  pure (backfill σ.battleStats normalized)

/-- One entry of the `PlayersInfo` normalization loop (lines 161-169).
`typeof null === 'object'`, so a `null` entry reaches `playerInfo._id` and
throws. -/
def normalizePlayerInfoEntry (v : JVal) : Except Unit JVal :=
  match v with
  | .null => .error ()
  | .obj fs =>
      pure (if truthy ((lookupA fs "_id").getD .null) then (lookupA fs "_id").getD .null
            else .obj fs)
  | v => pure v

/-- The `PlayersInfo` branch of `handleServerData` (lines 159-171). -/
def normalizePlayersInfo (playersInfo : JVal) : Except Unit (List (String × JVal)) :=
  (entries playersInfo).foldlM
    (buildStep (fun _ v => normalizePlayerInfoEntry v)) []

/-- `handleServerData(data)` of `src/scripts/coreService.js` (lines 87-175).
`Except.error σ'` models an uncaught throw leaving the fields in state `σ'`
(`this.BattleStats = normalized` runs before the `PlayersInfo` loop, so a
throw there keeps the new battle stats); `Except.ok σ'` is a normal return.
The `calculationCache` side effect (`clearBestWorstCache`) is not part of the
modelled state. -/
def handleServerData (ppf : Int) (now : Int) (σ : St) (data : JVal) :
    Except St St := do
  let success ← (jget data "success").mapError (fun _ => σ)
  if truthy success then
    let battleStats := getFieldD data "BattleStats"
    let playersInfo := getFieldD data "PlayerInfo"
    let σ₁ ←
      if truthy battleStats then do
        let final ← (mergeBattleStats ppf now σ battleStats).mapError (fun _ => σ)
        pure { σ with battleStats := final }
      else pure σ
    if truthy playersInfo then do
      let pi ← (normalizePlayersInfo playersInfo).mapError (fun _ => σ₁)
      pure { σ₁ with playersInfo := pi }
    else pure σ₁
  else pure σ

end CoreService

namespace BattleDataManager

/-! Embedding of `src/battle-history/scripts/battleDataManager.js`. -/

/-- Per-player normalization of `handleServerData` (battleDataManager.js
lines 283-297).  No `_id` unwrap here; `pinfo` is `this.PlayersInfo`, which
the caller has just reset to `{}`.  Errors exactly where JS throws: reading
`.kills` of a `null` player record. -/
def processPlayer (ppf : Int) (pinfo : List (String × JVal)) (pid : String)
    (playerData : JVal) : Except Unit Player := do
  let p := playerData
  let kRaw ← jget p "kills"
  let kills : Option Int := match kRaw with | .num j => j | _ => some 0
  let dRaw ← jget p "damage"
  let damage : Option Int := match dRaw with | .num j => j | _ => some 0
  let ptsRaw ← jget p "points"
  let points : Option Int :=
    match ptsRaw with | .num j => j | _ => nadd damage (nmul kills (some ppf))
  pure { name := jsOr (getFieldD p "name")
                  (jsOr ((lookupA pinfo pid).getD .null) (.str "Unknown Player")),
         damage := .num damage,
         kills := .num kills,
         points := .num points,
         vehicle := jsOr (getFieldD p "vehicle") (.str "Unknown Vehicle") }

/-- Per-battle normalization of `handleServerData` (battleDataManager.js
lines 278-305).  There is no merge with prior local data: records are rebuilt
from the payload alone.  Errors where JS throws: inside the player loop, or
reading `.startTime` of a `null` battle record. -/
def processBattle (ppf : Int) (now : Int) (pinfo : List (String × JVal))
    (battleData : JVal) : Except Unit Battle := do
  let battle := battleData
  let rawPlayers := jsOr (if isNull battle then .null else getFieldD battle "players")
                      (.obj [])
  let players ← (entries rawPlayers).foldlM
    (fun acc e => do
      let pl ← processPlayer ppf pinfo e.1 e.2
      pure (oset acc e.1 pl)) []
  let sStart ← jget battle "startTime"
  let sDur ← jget battle "duration"
  let sWin ← jget battle "win"
  let sMap ← jget battle "mapName"
  pure { startTime := jsOr sStart (.num (some now)),
         duration := jsNullish sDur (.num (some 0)),
         win := (match sWin with | .num j => JVal.num j | _ => .num (some (-1))),
         mapName := jsOr sMap (.str "Unknown Map"),
         players := players }

/-- `handleServerData(data)` of battleDataManager.js (lines 269-331).  The
guard is `data && data.success !== false`; when it holds, `this.BattleStats`
and `this.PlayersInfo` are reset to `{}` *before* any payload processing, so
the result never retains pre-call battles.  `dataLoadedFromServer`/
`saveState` (persistence) are external and not modelled. -/
def handleServerData (ppf : Int) (now : Int) (σ : St) (data : JVal) :
    Except St St :=
  if truthy data && !(jsStrictEq (getFieldD data "success") (.bool false)) then do
    let σr : St := { battleStats := [], playersInfo := [] }
    let σ₁ ←
      if truthy (getFieldD data "BattleStats") then do
        let normalized ← ((entries (getFieldD data "BattleStats")).foldlM
          (fun (acc : List (String × Battle)) (e : String × JVal) => do
            let pb ← processBattle ppf now σr.playersInfo e.2
            pure (oset acc e.1 pb)) []).mapError (fun _ => σr)
        pure { σr with battleStats := normalized }
      else pure σr
    if truthy (getFieldD data "PlayerInfo") then
      let npi := (entries (getFieldD data "PlayerInfo")).foldl
        (fun (acc : List (String × JVal)) e => oset acc e.1 e.2) []
      pure { σ₁ with playersInfo := npi }
    else pure σ₁
  else pure σ

end BattleDataManager

namespace HistoryCore

/-! Embedding of the `CoreService` evolution in `src/unnamed/part_000`
(lines 178-735).  Its per-battle/per-player merge code (lines 265-346) is
character-for-character the same as coreService.js lines 92-175, so the
shared loop bodies `CoreService.mergeBattleStats` / `normalizePlayersInfo`
are reused; only the entry guard differs. -/

/-- `handleServerData(data)` of part_000 (lines 260-347): guard is
`data.success || data.BattleStats || data.PlayerInfo`, and the two maps are
defaulted with `|| {}` before their (then always truthy) branch tests. -/
def handleServerData (ppf : Int) (now : Int) (σ : St) (data : JVal) :
    Except St St := do
  let success ← (jget data "success").mapError (fun _ => σ)
  if truthy success || truthy (getFieldD data "BattleStats")
      || truthy (getFieldD data "PlayerInfo") then
    let battleStats := jsOr (getFieldD data "BattleStats") (.obj [])
    let playersInfo := jsOr (getFieldD data "PlayerInfo") (.obj [])
    let σ₁ ←
      if truthy battleStats then do
        let final ← (CoreService.mergeBattleStats ppf now σ battleStats).mapError
          (fun _ => σ)
        pure { σ with battleStats := final }
      else pure σ
    if truthy playersInfo then do
      let pi ← (CoreService.normalizePlayersInfo playersInfo).mapError (fun _ => σ₁)
      pure { σ₁ with playersInfo := pi }
    else pure σ₁
  else pure σ

end HistoryCore

namespace JS

/-! `JSON.stringify`, restricted to the values that occur in the modelled
state (string escaping is elided: the serialization is only used for the
changed/unchanged comparison in the pull-on-change handler).  `NaN`
serializes as `null`, as in JS. -/

mutual

def stringifyJVal : JVal → String
  | .null => "null"
  | .bool b => if b then "true" else "false"
  | .num none => "null"
  | .num (some n) => toString n
  | .str s => "\"" ++ s ++ "\""
  | .obj fs => "\x7b" ++ stringifyFields fs ++ "\x7d"
  | .arr xs => "[" ++ stringifyElems xs ++ "]"

def stringifyFields : List (String × JVal) → String
  | [] => ""
  | [(k, v)] => "\"" ++ k ++ "\":" ++ stringifyJVal v
  | (k, v) :: rest => "\"" ++ k ++ "\":" ++ stringifyJVal v ++ "," ++ stringifyFields rest

def stringifyElems : List JVal → String
  | [] => ""
  | [v] => stringifyJVal v
  | v :: rest => stringifyJVal v ++ "," ++ stringifyElems rest

end

/-- Comma-join of already-serialized `"key":value` pieces. -/
def joinFields (ps : List String) : String := String.intercalate "," ps

end JS

/-- `JSON.stringify` of one player record (field order as constructed by the
code: name, damage, kills, points, vehicle). -/
def stringifyPlayer (p : Player) : String :=
  "\x7b\"name\":" ++ stringifyJVal p.name ++ ",\"damage\":" ++ stringifyJVal p.damage
    ++ ",\"kills\":" ++ stringifyJVal p.kills ++ ",\"points\":" ++ stringifyJVal p.points
    ++ ",\"vehicle\":" ++ stringifyJVal p.vehicle ++ "\x7d"

/-- `JSON.stringify` of one battle record (field order as constructed:
startTime, duration, win, mapName, players). -/
def stringifyBattle (b : Battle) : String :=
  "\x7b\"startTime\":" ++ stringifyJVal b.startTime
    ++ ",\"duration\":" ++ stringifyJVal b.duration
    ++ ",\"win\":" ++ stringifyJVal b.win
    ++ ",\"mapName\":" ++ stringifyJVal b.mapName
    ++ ",\"players\":\x7b"
    ++ joinFields (b.players.map (fun e => "\"" ++ e.1 ++ "\":" ++ stringifyPlayer e.2))
    ++ "\x7d\x7d"

/-- `JSON.stringify(this.BattleStats)`. -/
def stringifyBattleStats (bs : List (String × Battle)) : String :=
  "\x7b" ++ joinFields (bs.map (fun e => "\"" ++ e.1 ++ "\":" ++ stringifyBattle e.2)) ++ "\x7d"

/-- `JSON.stringify(this.PlayersInfo)`. -/
def stringifyPlayersInfo (pi : List (String × JVal)) : String :=
  "\x7b" ++ joinFields (pi.map (fun e => "\"" ++ e.1 ++ "\":" ++ stringifyJVal e.2)) ++ "\x7d"

namespace CoreService

/-- The widget's `socket.on('statsUpdated', ...)` handler together with the
`getStats` callback it registers (coreService.js lines 54-65).  `notif` is
the push payload, `resp` the `getStats` acknowledgment (the network
round-trip itself is external).  Returns the new state and whether a UI
`statsUpdated` event was emitted.  Note: when the response status is 200 the
emission is unconditional. -/
def onStatsUpdated (ppf : Int) (now : Int) (accessKey : String) (σ : St)
    (notif resp : JVal) : Except St (St × Bool) :=
  if truthy notif && jsStrictEq (getFieldD notif "key") (.str accessKey) then
    if truthy resp && jsStrictEq (getFieldD resp "status") (.num (some 200)) then do
      let σ' ← handleServerData ppf now σ (getFieldD resp "body")
      pure (σ', true)
    else pure (σ, false)
  else pure (σ, false)

end CoreService

namespace HistoryCore

/-- The part_000 `socket.on('statsUpdated', ...)` handler with its `getStats`
callback (part_000 lines 224-249): serializes `PlayersInfo`/`BattleStats`
before and after `handleServerData(response)` and emits (and persists) only
when a serialization changed. -/
def onStatsUpdated (ppf : Int) (now : Int) (accessKey : String) (σ : St)
    (notif resp : JVal) : Except St (St × Bool) :=
  if truthy notif && jsStrictEq (getFieldD notif "key") (.str accessKey) then
    if truthy resp && jsStrictEq (getFieldD resp "status") (.num (some 200)) then do
      let oldPlayersInfo := stringifyPlayersInfo σ.playersInfo
      let oldBattleStats := stringifyBattleStats σ.battleStats
      let σ' ← handleServerData ppf now σ resp
      let playersChanged := stringifyPlayersInfo σ'.playersInfo != oldPlayersInfo
      let battlesChanged := stringifyBattleStats σ'.battleStats != oldBattleStats
      pure (σ', playersChanged || battlesChanged)
    else pure (σ, false)
  else pure (σ, false)

end HistoryCore

/-- The tracker fields of `CoreService` relevant to the event handlers,
alongside the store. -/
structure CoreState : Type where
  stats : St
  curentPlayerId : JVal
  curentArenaId : JVal
  curentVehicle : JVal
  isInPlatoon : Bool
  needToAddPlayers : Bool
deriving Repr

namespace CoreService

/-- `isExistsPlayerRecord()` (coreService.js lines 335-341):
`this.PlayersInfo` is an object, hence always truthy. -/
def isExistsPlayerRecord (σ : CoreState) : Bool :=
  !(isNull σ.curentPlayerId)
    && containsKey σ.stats.playersInfo (jsToString σ.curentPlayerId)

/-- `getPlayersIds()` (coreService.js lines 329-333).  Only the count of ids
is consumed by the modelled guard, so the final `.map(Number)` is dropped;
`!isNaN(key)` is `ToNumber(key)` not being `NaN`. -/
def getPlayersIds (pinfo : List (String × JVal)) : List String :=
  (pinfo.map Prod.fst).filter (fun k => (toNumber (.str k)).isSome)

/-- `handleHangarStatus(isInHangar)` (coreService.js lines 814-833).  The SDK
reads `this.sdk.data.player.id.value` / `name.value` are passed in as
`sdkPlayerId` / `sdkPlayerName`.  Returns the new state and whether the
debounced outbound sync was scheduled.  The `null`/`undefined` distinction of
the `=== null` test collapses in the model; the theorems below only
instantiate numeric ids. -/
def handleHangarStatus (σ : CoreState) (isInHangar : Bool)
    (sdkPlayerId sdkPlayerName : JVal) : CoreState × Bool :=
  if !isInHangar then (σ, false)
  else if σ.needToAddPlayers then
    let playersID := getPlayersIds σ.stats.playersInfo
    let σ' := { σ with curentPlayerId := sdkPlayerId, curentArenaId := .null }
    if jsStrictEq σ'.curentPlayerId .null then (σ', false)
    else if (σ'.isInPlatoon && decide (playersID.length > 3))
         || (!σ'.isInPlatoon && decide (playersID.length ≥ 1)) then (σ', false)
    else
      let npi := oset σ'.stats.playersInfo (jsToString sdkPlayerId) sdkPlayerName
      ({ σ' with stats := { σ'.stats with playersInfo := npi } }, true)
  else (σ, false)

/-- `for (const vehicle of vehicles)`: arrays and strings are iterable,
everything else throws a `TypeError`. -/
def iterateOf : JVal → Except Unit (List JVal)
  | .arr xs => .ok xs
  | .str s => .ok (s.toList.map (fun c => JVal.str (String.mk [c])))
  | _ => .error ()

/-- The inner `for...of` of `handleBattleResult` (lines 990-1004): scan one
vehicle group for the entry whose `accountDBID` strictly equals the current
player id; on the first match overwrite that player's stats (if the battle
has a record for them) and `break`.  Errors exactly where JS throws (reading
`.accountDBID` of a `null` element), before any update of that iteration. -/
def vehicleScan (ppf : Int) (pidKey : String) (pid : JVal) :
    List JVal → Battle → Except Unit Battle
  | [], b => .ok b
  | v :: rest, b => do
      let acc ← jget v "accountDBID"
      if jsStrictEq acc pid then
        match lookupA b.players pidKey with
        | some ps =>
            let ps' := { ps with
              damage := getFieldD v "damageDealt",
              kills := getFieldD v "kills",
              points := jsAdd (getFieldD v "damageDealt")
                          (jsMul (getFieldD v "kills") (.num (some ppf))) }
            .ok { b with players := oset b.players pidKey ps' }
        | none => .ok b
      else vehicleScan ppf pidKey pid rest b

/-- The outer `for...in` over `result.vehicles` (the inner `break` only exits
one group, so later groups can match again).  On a throw the error carries
the battle record as mutated so far. -/
def vehiclesLoop (ppf : Int) (pidKey : String) (pid : JVal) :
    List (String × JVal) → Battle → Except Battle Battle
  | [], b => .ok b
  | (_, gv) :: rest, b =>
      match iterateOf gv with
      | .error _ => .error b
      | .ok elems =>
          match vehicleScan ppf pidKey pid elems b with
          | .error _ => .error b
          | .ok b' => vehiclesLoop ppf pidKey pid rest b'

/-- The `mapName` backfill of `handleBattleResult` (lines 968-973): if
`result.common.arenaTag` is truthy and the current map name is falsy, the
`'Unknown Map'` sentinel, or the empty string, overwrite it. -/
def applyMapBackfill (arenaTag : JVal) (b : Battle) : Battle :=
  if truthy arenaTag then
    (if !(truthy b.mapName) || jsStrictEq b.mapName (.str "Unknown Map")
        || jsStrictEq b.mapName (.str "") then { b with mapName := arenaTag }
     else b)
  else b

/-- The `win` resolution of `handleBattleResult` (lines 975-986): only when
the player's team is a number other than `0`; `1` on a team match, `2` on
winner-team `0` (draw), `0` otherwise. -/
def applyWinRule (playerTeam winnerTeam : Option Int) (b : Battle) : Battle :=
  if playerTeam ≠ some 0 then
    (if (match playerTeam, winnerTeam with
         | some t, some w => t == w
         | _, _ => false) then { b with win := .num (some 1) }
     else if winnerTeam = some 0 then { b with win := .num (some 2) }
     else { b with win := .num (some 0) })
  else b

/-- `handleBattleResult(result)` (coreService.js lines 949-1013).
`Except.error σ'` models an uncaught throw with the fields as mutated so far
(the JS code mutates `this` in place).  The returned `Bool` says whether the
debounced outbound sync was scheduled at the end.  The cache side effect
(`clearBestWorstCache`) and the random delay are not modelled. -/
def handleBattleResult (ppf : Int) (σ : CoreState) (result : JVal) :
    Except CoreState (CoreState × Bool) :=
  if !(truthy result && truthy (getFieldD result "vehicles")
        && truthy (getFieldD result "players")) then .ok (σ, false)
  else
    let arenaIdV := getFieldD result "arenaUniqueID"
    if !(truthy arenaIdV) then .ok (σ, false)
    else do
      let personal := getFieldD result "personal"
      let avatar ← (jget personal "avatar").mapError (fun _ => σ)
      let accountDBID ← (jget avatar "accountDBID").mapError (fun _ => σ)
      let σ₁ := { σ with curentPlayerId := accountDBID, needToAddPlayers := false }
      let aKey := jsToString arenaIdV
      match lookupA σ₁.stats.battleStats aKey with
      | none => .ok (σ₁, false)
      | some b0 => do
        let common := getFieldD result "common"
        let dur ← (jget common "duration").mapError (fun _ => σ₁)
        let b1 := { b0 with duration := dur }
        let b2 := applyMapBackfill (getFieldD common "arenaTag") b1
        let withB := fun (b : Battle) =>
          { σ₁ with stats := { σ₁.stats with
              battleStats := oset σ₁.stats.battleStats aKey b } }
        let pidKey := jsToString accountDBID
        let pEntry := getFieldD (getFieldD result "players") pidKey
        let teamV ← (jget pEntry "team").mapError (fun _ => withB b2)
        let b3 := applyWinRule (toNumber teamV) (toNumber (getFieldD common "winnerTeam")) b2
        match vehiclesLoop ppf pidKey accountDBID (entries (getFieldD result "vehicles")) b3 with
        | .error bExn => .error (withB bExn)
        | .ok b4 =>
            let σ₄ := withB b4
            .ok (σ₄, isExistsPlayerRecord σ₄)

/-- `calculateBattlePoints(battle)` (coreService.js lines 411-425): starts at
`0`, adds `POINTS_PER_TEAM_WIN` (`ptw`) iff `battle.win === 1`, then
`+= player.points || 0` over the battle's players. -/
def calculateBattlePoints (ptw : Int) (b : Battle) : JVal :=
  let bp : JVal := .num (some 0)
  let bp := if jsStrictEq b.win (.num (some 1)) then jsAdd bp (.num (some ptw)) else bp
  b.players.foldl (fun acc e => jsAdd acc (jsOr e.2.points (.num (some 0)))) bp

/-- `findBestAndWorstBattle()` (coreService.js lines 343-409), modelled at a
cache miss (the memoization table is not part of the modelled state).  The
battles carrying their id (`{ id: arenaId, ...battle }`) are modelled as
key/record pairs.  Returns `(bestBattle, worstBattle)`, each
`{ battle, points }` or `null`.  The `try/catch` blocks are dead in the
model: `calculateBattlePoints` is total. -/
def findBestAndWorstBattle (ptw : Int) (σ : St) :
    Option ((String × Battle) × JVal) × Option ((String × Battle) × JVal) :=
  let allBattles := σ.battleStats
  if allBattles.isEmpty then (none, none)
  else
    let completedBattles := allBattles.filter
      (fun e => !(jsStrictEq e.2.win (.num (some (-1)))))
    match completedBattles with
    | [] => (none, none)
    | c0 :: _ =>
      let p0 := calculateBattlePoints ptw c0.2
      let r := completedBattles.foldl
        (fun (acc : ((String × Battle) × JVal) × ((String × Battle) × JVal)) e =>
          let pts := calculateBattlePoints ptw e.2
          let w := if jsLt pts acc.1.2 then (e, pts) else acc.1
          let b := if jsGt pts acc.2.2 then (e, pts) else acc.2
          (w, b)) ((c0, p0), (c0, p0))
      (some r.2, some r.1)

end CoreService

namespace BattleDataManager

/-- `isValidImportData(data)` (battleDataManager.js lines 588-590):
`data && typeof data === 'object'`. -/
def isValidImportData (data : JVal) : Bool :=
  truthy data && typeofObject data

/-- `importData(importedData)` (battleDataManager.js lines 543-586): the only
gate before handing the payload to the backend is `isValidImportData`.
Returns `(state, accepted, payload handed to the backend)`.  The post-send
`refreshLocalData()` (a server round-trip) and the socket/REST transport are
external; no local mutation happens inside `importData` itself. -/
def importData (σ : St) (importedData : JVal) : St × Bool × Option JVal :=
  if !(isValidImportData importedData) then (σ, false, none)
  else (σ, true, some importedData)

/-- `typeof v` as a string (with `undefined` collapsed into `null`, hence
reported as "object"; JSON payloads carry no `undefined`). -/
def typeofStr : JVal → String
  | .null => "object"
  | .bool _ => "boolean"
  | .num _ => "number"
  | .str _ => "string"
  | .obj _ => "object"
  | .arr _ => "object"

/-- `field in v`.  On primitives the JS `in` operator throws; the validators
are only ever given object-shaped records in the modelled statements, where
this is own-or-index presence. -/
def hasProp : JVal → String → Bool
  | .obj fs, k => containsKey fs k
  | .arr xs, k => (match k.toNat? with | some i => i < xs.length | none => false)
  | _, _ => false

/-- The `fieldTypes` table of `validatePlayerData` (lines 624-630). -/
def playerFieldTypes : List (String × String) :=
  [("name", "string"), ("damage", "number"), ("kills", "number"),
   ("points", "number"), ("vehicle", "string")]

/-- `validatePlayerData(playerData)` (battleDataManager.js lines 622-645). -/
def validatePlayerData (playerData : JVal) : Bool :=
  ["name", "damage", "kills", "points", "vehicle"].all (fun f =>
    hasProp playerData f
      && typeofStr (getFieldD playerData f) == (lookupA playerFieldTypes f).getD "")

/-- `validateBattleData(battleData)` (battleDataManager.js lines 600-620):
required fields present, `players` of object type, and every player record
valid (`Object.entries(null)` would throw in JS; the modelled statements
only use object-typed `players`). -/
def validateBattleData (battleData : JVal) : Bool :=
  ["startTime", "duration", "win", "mapName", "players"].all (hasProp battleData)
    && typeofStr (getFieldD battleData "players") == "object"
    && (entries (getFieldD battleData "players")).all (fun e => validatePlayerData e.2)

end BattleDataManager

/-! ### Map and monad infrastructure lemmas -/

namespace JS

@[simp] theorem except_bind_ok {ε α β : Type} (a : α) (f : α → Except ε β) :
    (Except.ok a >>= f) = f a := rfl

@[simp] theorem except_bind_error {ε α β : Type} (e : ε) (f : α → Except ε β) :
    ((Except.error e : Except ε α) >>= f) = .error e := rfl

@[simp] theorem except_pure {ε α : Type} (a : α) :
    (pure a : Except ε α) = .ok a := rfl

@[simp] theorem except_mapError_ok {ε ε' α : Type} (a : α) (f : ε → ε') :
    (Except.ok a : Except ε α).mapError f = .ok a := rfl

@[simp] theorem except_mapError_error {ε ε' α : Type} (e : ε) (f : ε → ε') :
    (Except.error e : Except ε α).mapError f = .error (f e) := rfl

theorem lookupA_oset {α : Type} (l : List (String × α)) (k k' : String) (v : α) :
    lookupA (oset l k v) k' = if k = k' then some v else lookupA l k' := by
  induction l with
  | nil => by_cases h : k = k' <;> simp [oset, lookupA, h]
  | cons e rest ih =>
    obtain ⟨k0, v0⟩ := e
    by_cases h0 : k0 = k
    · subst h0
      by_cases h : k0 = k' <;> simp [oset, lookupA, h]
    · by_cases h : k0 = k'
      · subst h
        have hk : ¬ k = k0 := fun hh => h0 hh.symm
        simp [oset, lookupA, h0, hk]
      · simp [oset, lookupA, h0, h, ih]

theorem containsKey_oset {α : Type} (l : List (String × α)) (k k' : String) (v : α) :
    containsKey (oset l k v) k' = (k = k' || containsKey l k') := by
  by_cases h : k = k' <;> simp [containsKey, lookupA_oset, h]

theorem lookupA_eq_none_of_all_ne {α : Type} (l : List (String × α)) (k : String)
    (h : ∀ e ∈ l, e.1 ≠ k) : lookupA l k = none := by
  induction l with
  | nil => rfl
  | cons e rest ih =>
    have h1 : e.1 ≠ k := h e (by simp)
    simp [lookupA, h1, ih (fun x hx => h x (by simp [hx]))]

theorem lookupA_mem {α : Type} (l : List (String × α)) (k : String) (v : α)
    (h : lookupA l k = some v) : (k, v) ∈ l := by
  induction l with
  | nil => simp [lookupA] at h
  | cons e rest ih =>
    by_cases he : e.1 = k
    · obtain ⟨k0, v0⟩ := e
      simp only at he
      subst he
      simp [lookupA] at h
      simp [h]
    · simp [lookupA, he] at h
      exact List.mem_cons_of_mem _ (ih h)

theorem containsKey_of_mem {α : Type} (l : List (String × α)) (e : String × α)
    (h : e ∈ l) : containsKey l e.1 = true := by
  induction l with
  | nil => simp at h
  | cons x rest ih =>
    rcases List.mem_cons.mp h with h' | h'
    · subst h'; simp [containsKey, lookupA]
    · by_cases hx : x.1 = e.1
      · simp [containsKey, lookupA, hx]
      · simpa [containsKey, lookupA, hx] using ih h'

end JS

namespace CoreService

theorem foldlM_buildStep_not_mem {β : Type} (f : String → JVal → Except Unit β) :
    ∀ (l : List (String × JVal)) (acc out : List (String × β)),
      l.foldlM (buildStep f) acc = .ok out →
      ∀ k, (∀ e ∈ l, e.1 ≠ k) → lookupA out k = lookupA acc k := by
  intro l
  induction l with
  | nil =>
    intro acc out h k _
    simp only [List.foldlM_nil] at h
    cases h
    rfl
  | cons e rest ih =>
    intro acc out h k hk
    rw [List.foldlM_cons] at h
    cases hf : f e.1 e.2 with
    | error u => simp [buildStep, hf] at h
    | ok v =>
      have h' : rest.foldlM (buildStep f) (oset acc e.1 v) = .ok out := by
        simpa [buildStep, hf] using h
      have hne : e.1 ≠ k := hk e (by simp)
      rw [ih _ _ h' k (fun x hx => hk x (by simp [hx]))]
      simp [lookupA_oset, hne]

theorem foldlM_buildStep_mem {β : Type} (f : String → JVal → Except Unit β) :
    ∀ (l : List (String × JVal)) (acc out : List (String × β)),
      l.foldlM (buildStep f) acc = .ok out →
      keysNodup l = true →
      ∀ k v, lookupA l k = some v →
      ∃ b, f k v = .ok b ∧ lookupA out k = some b := by
  intro l
  induction l with
  | nil => intro acc out _ _ k v h; simp [lookupA] at h
  | cons e rest ih =>
    intro acc out h hnd k v hl
    rw [List.foldlM_cons] at h
    cases hf : f e.1 e.2 with
    | error u => simp [buildStep, hf] at h
    | ok b0 =>
      have h' : rest.foldlM (buildStep f) (oset acc e.1 b0) = .ok out := by
        simpa [buildStep, hf] using h
      obtain ⟨k0, v0⟩ := e
      simp only [keysNodup, Bool.and_eq_true, Bool.not_eq_true'] at hnd
      by_cases hek : k0 = k
      · subst hek
        simp [lookupA] at hl
        subst hl
        refine ⟨b0, hf, ?_⟩
        have hnone : ∀ x ∈ rest, x.1 ≠ k0 := by
          intro x hx hxe
          have hc : containsKey rest k0 = true := by
            have := containsKey_of_mem rest x hx
            rwa [hxe] at this
          rw [hc] at hnd
          exact absurd hnd.1 (by simp)
        rw [foldlM_buildStep_not_mem f rest _ _ h' k0 hnone]
        simp [lookupA_oset]
      · simp only [lookupA, if_neg hek] at hl
        exact ih _ _ h' hnd.2 k v hl

theorem backfill_containsKey (bs : List (String × Battle)) :
    ∀ (nm : List (String × Battle)) (k : String), containsKey nm k = true →
      lookupA (backfill bs nm) k = lookupA nm k := by
  induction bs with
  | nil => intro nm k _; rfl
  | cons e rest ih =>
    intro nm k hk
    by_cases hc : containsKey nm e.1
    · simp only [backfill, List.foldl_cons, hc, if_true]
      exact ih nm k hk
    · have hne : e.1 ≠ k := by
        intro hh; rw [hh] at hc; exact hc hk
      simp only [backfill, List.foldl_cons, hc, Bool.false_eq_true, if_false]
      have h1 : lookupA (oset nm e.1 e.2) k = lookupA nm k := by
        simp [lookupA_oset, hne]
      have h2 : containsKey (oset nm e.1 e.2) k = true := by
        simp only [containsKey, h1]; simpa [containsKey] using hk
      have := ih (oset nm e.1 e.2) k h2
      simp only [backfill] at this
      rw [this, h1]

theorem backfill_absent (bs : List (String × Battle)) :
    ∀ (nm : List (String × Battle)) (k : String), lookupA nm k = none →
      lookupA (backfill bs nm) k = lookupA bs k := by
  induction bs with
  | nil => intro nm k h; simp [backfill, lookupA, h]
  | cons e rest ih =>
    intro nm k hk
    by_cases hek : e.1 = k
    · subst hek
      have hc : containsKey nm e.1 = false := by simp [containsKey, hk]
      simp only [backfill, List.foldl_cons, hc, Bool.false_eq_true, if_false]
      have h2 : containsKey (oset nm e.1 e.2) e.1 = true := by
        simp [containsKey, lookupA_oset]
      have := backfill_containsKey rest (oset nm e.1 e.2) e.1 h2
      simp only [backfill] at this
      rw [this]
      obtain ⟨k0, v0⟩ := e
      simp [lookupA_oset, lookupA]
    · by_cases hc : containsKey nm e.1
      · simp only [backfill, List.foldl_cons, hc, if_true]
        rw [show lookupA (e :: rest) k = lookupA rest k by
          obtain ⟨k0, v0⟩ := e; simp_all [lookupA]]
        exact ih nm k hk
      · simp only [backfill, List.foldl_cons, hc, Bool.false_eq_true, if_false]
        have h1 : lookupA (oset nm e.1 e.2) k = none := by
          simp [lookupA_oset, hek, hk]
        rw [show lookupA (e :: rest) k = lookupA rest k by
          obtain ⟨k0, v0⟩ := e; simp_all [lookupA]]
        exact ih _ k h1

end CoreService

namespace CoreService

theorem mergeBattleStats_eq (ppf now : Int) (σ : St) (bsv : JVal) :
    mergeBattleStats ppf now σ bsv =
      (entries bsv).foldlM (buildStep (processBattle ppf now σ)) [] >>=
        (fun nm => pure (backfill σ.battleStats nm)) := rfl

theorem mergeBattleStats_absent (ppf now : Int) (σ : St) (bsv : JVal)
    (final : List (String × Battle)) (aid : String)
    (hok : mergeBattleStats ppf now σ bsv = .ok final)
    (habsent : ∀ e ∈ entries bsv, e.1 ≠ aid) :
    lookupA final aid = lookupA σ.battleStats aid := by
  rw [mergeBattleStats_eq] at hok
  cases hfold : (entries bsv).foldlM (buildStep (processBattle ppf now σ)) [] with
  | error u => rw [hfold] at hok; simp at hok
  | ok nm =>
    rw [hfold] at hok
    simp at hok
    have h1 : lookupA nm aid = none :=
      foldlM_buildStep_not_mem _ _ _ _ hfold aid habsent
    rw [← hok]
    exact backfill_absent σ.battleStats nm aid h1

/-- Case analysis on a successful `handleServerData`: either the battle map
is untouched, or it is the result of `mergeBattleStats` on the payload's
`BattleStats`. -/
theorem handleServerData_ok_battleStats (ppf now : Int) (σ σ' : St) (data : JVal)
    (h : handleServerData ppf now σ data = .ok σ') :
    σ'.battleStats = σ.battleStats ∨
    (truthy (getFieldD data "success") = true ∧
     truthy (getFieldD data "BattleStats") = true ∧
     mergeBattleStats ppf now σ (getFieldD data "BattleStats") = .ok σ'.battleStats) := by
  unfold handleServerData at h
  cases hs : jget data "success" with
  | error u => rw [hs] at h; simp at h
  | ok s =>
    rw [hs] at h
    have hsv : s = getFieldD data "success" := by
      unfold jget at hs
      cases hgf : getField data "success" with
      | none => rw [hgf] at hs; simp at hs
      | some x => rw [hgf] at hs; simp at hs; simp [getFieldD, hgf, hs]
    simp only [except_mapError_ok, except_bind_ok] at h
    by_cases htr : truthy s
    · rw [if_pos htr] at h
      by_cases hbs : truthy (getFieldD data "BattleStats")
      · rw [if_pos hbs] at h
        cases hm : mergeBattleStats ppf now σ (getFieldD data "BattleStats") with
        | error u => rw [hm] at h; simp at h
        | ok final =>
          rw [hm] at h
          simp only [except_mapError_ok, except_bind_ok, except_pure] at h
          right
          refine ⟨hsv ▸ htr, hbs, ?_⟩
          by_cases hpi : truthy (getFieldD data "PlayerInfo")
          · rw [if_pos hpi] at h
            cases hn : normalizePlayersInfo (getFieldD data "PlayerInfo") with
            | error u => rw [hn] at h; simp at h
            | ok pi =>
              rw [hn] at h
              simp only [except_mapError_ok, except_bind_ok, except_pure] at h
              cases h
              simpa using hm
          · rw [if_neg hpi] at h
            try simp only [except_pure] at h
            cases h
            simpa using hm
      · rw [if_neg hbs] at h
        simp only [except_pure, except_bind_ok] at h
        left
        by_cases hpi : truthy (getFieldD data "PlayerInfo")
        · rw [if_pos hpi] at h
          cases hn : normalizePlayersInfo (getFieldD data "PlayerInfo") with
          | error u => rw [hn] at h; simp at h
          | ok pi =>
            rw [hn] at h
            simp only [except_mapError_ok, except_bind_ok, except_pure] at h
            cases h
            rfl
        · rw [if_neg hpi] at h
          try simp only [except_pure] at h
          cases h
          rfl
    · rw [if_neg htr] at h
      try simp only [except_pure] at h
      cases h
      left; rfl

end CoreService

/-- **C1** — Non-destructive merge, as it holds of the widget core
(`CoreService.handleServerData`, coreService.js lines 150-157): for every
local state and incoming snapshot, an arena id present locally whose key is
not among the snapshot's `BattleStats` entries keeps exactly its old battle
record (all fields unchanged) after a successful reconcile. -/
theorem C1_nonDestructiveMerge_coreService (ppf now : Int) (σ σ' : St)
    (data : JVal) (aid : String) (lb : Battle)
    (hok : CoreService.handleServerData ppf now σ data = .ok σ')
    (hlocal : lookupA σ.battleStats aid = some lb)
    (habsent : ∀ e ∈ entries (getFieldD data "BattleStats"), e.1 ≠ aid) :
    lookupA σ'.battleStats aid = some lb := by
  rcases CoreService.handleServerData_ok_battleStats ppf now σ σ' data hok with h | ⟨_, _, hm⟩
  · rw [h]; exact hlocal
  · rw [CoreService.mergeBattleStats_absent ppf now σ _ _ aid hm habsent]
    exact hlocal

def c1LocalBattle : Battle :=
  { startTime := .num (some 5), duration := .num (some 0), win := .num (some (-1)),
    mapName := .str "Karelia", players := [] }

def c1LocalState : St := { battleStats := [("A", c1LocalBattle)], playersInfo := [] }

/-- **C1, counterexample** — the claim also names
`BattleDataManager.handleServerData` (battleDataManager.js lines 269-331),
and there it is false: a local state holding arena `"A"` and a snapshot that
mentions no arena at all (`{}`: truthy, `success !== false`) end in an empty
battle map — the local record is destroyed, not preserved. -/
theorem C1_counterexample_battleDataManager :
    lookupA c1LocalState.battleStats "A" = some c1LocalBattle ∧
    entries (getFieldD (JVal.obj []) "BattleStats") = [] ∧
    BattleDataManager.handleServerData 5 999 c1LocalState (JVal.obj []) =
      .ok { battleStats := [], playersInfo := [] } ∧
    lookupA (St.battleStats { battleStats := [], playersInfo := [] }) "A" = none := by
  refine ⟨rfl, rfl, rfl, rfl⟩

def c1Snapshot : JVal :=
  .obj [("success", .bool true), ("BattleStats", .obj [("B", .obj [])])]

def c1MergedOut : St :=
  { battleStats :=
      [("B", { startTime := .num (some 999), duration := .num (some 0),
               win := .num (some (-1)), mapName := .str "Unknown Map", players := [] }),
       ("A", c1LocalBattle)],
    playersInfo := [] }

/-- Witness for C1: a concrete local state with arena `"A"`, a snapshot
mentioning only `"B"`, and the preserved record. -/
theorem C1_witness : lookupA c1MergedOut.battleStats "A" = some c1LocalBattle :=
  C1_nonDestructiveMerge_coreService 5 999 c1LocalState c1MergedOut c1Snapshot "A"
    c1LocalBattle (by rfl) (by rfl) (by decide)

/-! ### C4: malformed-data tolerance of the reconcile path -/

namespace JS

theorem jget_ok_of_ne_null (v : JVal) (k : String) (h : v ≠ .null) :
    jget v k = .ok (getFieldD v k) := by
  cases v with
  | null => exact absurd rfl h
  | bool b => rfl
  | num n => rfl
  | str s => rfl
  | obj fs => rfl
  | arr xs => rfl

end JS

namespace CoreService

theorem unwrapId_ne_null (v : JVal) (h : v ≠ .null) : unwrapId v ≠ .null := by
  unfold unwrapId
  by_cases hc : (truthy v && typeofObject v && truthy (getFieldD v "_id")) = true
  · rw [if_pos hc]
    intro hg
    simp only [Bool.and_eq_true] at hc
    rw [hg] at hc
    simp [truthy] at hc
  · rw [if_neg hc]; exact h

/-- No record the reconcile path dereferences is `null`: the payload itself,
each battle record, each player record inside a battle, and each
`PlayerInfo` entry.  These are exactly the places where
`handleServerData` can throw. -/
def noNullRecords (data : JVal) : Bool :=
  !(isNull data)
    && (entries (getFieldD data "BattleStats")).all (fun e =>
         !(isNull e.2) && (battlePlayersEntries e.2).all (fun q => !(isNull q.2)))
    && (entries (getFieldD data "PlayerInfo")).all (fun q => !(isNull q.2))

theorem processPlayer_ok (ppf : Int) (exP : List (String × Player))
    (pinfo : List (String × JVal)) (pid : String) (pd : JVal) (h : pd ≠ .null) :
    ∃ pl, processPlayer ppf exP pinfo pid pd = .ok pl := by
  have hp := unwrapId_ne_null pd h
  simp only [processPlayer]
  rw [jget_ok_of_ne_null _ _ hp, jget_ok_of_ne_null _ _ hp, jget_ok_of_ne_null _ _ hp]
  simp only [except_bind_ok]
  cases lookupA exP pid <;> exact ⟨_, rfl⟩

theorem foldlM_buildStep_total {β : Type} (f : String → JVal → Except Unit β)
    (l : List (String × JVal)) (h : ∀ e ∈ l, ∃ b, f e.1 e.2 = .ok b) :
    ∀ acc, ∃ out, l.foldlM (buildStep f) acc = .ok out := by
  induction l with
  | nil => intro acc; exact ⟨acc, by simp [List.foldlM_nil]⟩
  | cons e rest ih =>
    intro acc
    obtain ⟨b, hb⟩ := h e (by simp)
    obtain ⟨out, hout⟩ := ih (fun x hx => h x (by simp [hx])) (oset acc e.1 b)
    exact ⟨out, by rw [List.foldlM_cons]; simpa [buildStep, hb] using hout⟩

theorem processBattle_ok (ppf now : Int) (σ : St) (aid : String) (battle : JVal)
    (h : battle ≠ .null)
    (hps : ∀ e ∈ battlePlayersEntries battle, e.2 ≠ .null) :
    ∃ b, processBattle ppf now σ aid battle = .ok b := by
  have hb := unwrapId_ne_null battle h
  obtain ⟨players, hplayers⟩ := foldlM_buildStep_total
    (processPlayer ppf
      (match lookupA σ.battleStats aid with | some b => b.players | none => [])
      σ.playersInfo)
    (battlePlayersEntries battle)
    (fun e he => processPlayer_ok _ _ _ _ _ (hps e he)) []
  simp only [processBattle]
  rw [hplayers]
  rw [jget_ok_of_ne_null _ _ hb, jget_ok_of_ne_null _ _ hb,
      jget_ok_of_ne_null _ _ hb, jget_ok_of_ne_null _ _ hb]
  simp only [except_bind_ok]
  exact ⟨_, rfl⟩

theorem normalizePlayerInfoEntry_ok (v : JVal) (h : v ≠ .null) :
    ∃ w, normalizePlayerInfoEntry v = .ok w := by
  cases v with
  | null => exact absurd rfl h
  | bool b => exact ⟨_, rfl⟩
  | num n => exact ⟨_, rfl⟩
  | str s => exact ⟨_, rfl⟩
  | obj fs => exact ⟨_, rfl⟩
  | arr xs => exact ⟨_, rfl⟩

theorem normalizePlayersInfo_ok (piv : JVal)
    (h : ∀ e ∈ entries piv, e.2 ≠ .null) :
    ∃ out, normalizePlayersInfo piv = .ok out := by
  have hall : ∀ e ∈ entries piv, ∃ w,
      (fun (_ : String) (v : JVal) => normalizePlayerInfoEntry v) e.1 e.2 = .ok w :=
    fun e he => normalizePlayerInfoEntry_ok e.2 (h e he)
  obtain ⟨out, hout⟩ := foldlM_buildStep_total
    (fun (_ : String) (v : JVal) => normalizePlayerInfoEntry v) (entries piv) hall []
  exact ⟨out, hout⟩

theorem mergeBattleStats_ok (ppf now : Int) (σ : St) (bsv : JVal)
    (h : ∀ e ∈ entries bsv, e.2 ≠ .null ∧
          ∀ q ∈ battlePlayersEntries e.2, q.2 ≠ .null) :
    ∃ final, mergeBattleStats ppf now σ bsv = .ok final := by
  obtain ⟨nm, hnm⟩ := foldlM_buildStep_total (processBattle ppf now σ) (entries bsv)
    (fun e he => processBattle_ok ppf now σ e.1 e.2 (h e he).1 (h e he).2) []
  exact ⟨backfill σ.battleStats nm, by rw [mergeBattleStats_eq, hnm]; rfl⟩

end CoreService

namespace CoreService

theorem handleServerData_total (ppf now : Int) (σ : St) (data : JVal)
    (h : noNullRecords data = true) :
    ∃ σ', handleServerData ppf now σ data = .ok σ' := by
  unfold noNullRecords at h
  simp only [Bool.and_eq_true, Bool.not_eq_true', List.all_eq_true] at h
  obtain ⟨⟨hd, hbs⟩, hpi⟩ := h
  have hdn : data ≠ .null := by
    intro hh; rw [hh] at hd; simp [isNull] at hd
  unfold handleServerData
  rw [jget_ok_of_ne_null _ _ hdn]
  simp only [except_mapError_ok, except_bind_ok]
  by_cases hts : truthy (getFieldD data "success")
  · rw [if_pos hts]
    have step1 : ∀ σ₁ : St, ∃ σ', (if truthy (getFieldD data "PlayerInfo") = true then do
        let pi ← (normalizePlayersInfo (getFieldD data "PlayerInfo")).mapError (fun _ => σ₁)
        pure { σ₁ with playersInfo := pi }
      else pure σ₁) = Except.ok σ' := by
      intro σ₁
      by_cases htp : truthy (getFieldD data "PlayerInfo")
      · rw [if_pos htp]
        obtain ⟨pi, hpiok⟩ := normalizePlayersInfo_ok (getFieldD data "PlayerInfo")
          (fun e he => by
            intro hh
            have := hpi e he
            rw [hh] at this
            simp [isNull] at this)
        rw [hpiok]
        exact ⟨_, rfl⟩
      · rw [if_neg htp]; exact ⟨_, rfl⟩
    by_cases htb : truthy (getFieldD data "BattleStats")
    · rw [if_pos htb]
      obtain ⟨final, hfinal⟩ := mergeBattleStats_ok ppf now σ (getFieldD data "BattleStats")
        (fun e he => by
          have := hbs e he
          constructor
          · intro hh
            rw [hh] at this
            simp [isNull] at this
          · intro q hq hh
            have h2 := this.2 q hq
            rw [hh] at h2
            simp [isNull] at h2)
      rw [hfinal]
      simp only [except_mapError_ok, except_bind_ok, except_pure]
      exact step1 _
    · rw [if_neg htb]
      simp only [except_pure, except_bind_ok]
      exact step1 _
  · rw [if_neg hts]
    exact ⟨_, rfl⟩

/-- A one-battle, one-player payload in which every battle and player field
is missing. -/
def allMissingPayload (aid pid : String) : JVal :=
  .obj [("success", .bool true),
        ("BattleStats", .obj [(aid, .obj [("players", .obj [(pid, .obj [])])])])]

/-- The battle record the reconcile path builds from `allMissingPayload`
against an empty store: every field at its default. -/
def allMissingResult (now : Int) (pid : String) : Battle :=
  { startTime := .num (some now), duration := .num (some 0), win := .num (some (-1)),
    mapName := .str "Unknown Map",
    players := [(pid, { name := .str "Unknown Player", damage := .num (some 0),
                        kills := .num (some 0), points := .num (some 0),
                        vehicle := .str "Unknown Vehicle" })] }

/-- A payload whose player has numeric `damage`/`kills` but no `points`. -/
def derivedPointsPayload (aid pid : String) (d k : Int) : JVal :=
  .obj [("success", .bool true),
        ("BattleStats", .obj [(aid, .obj [("players",
          .obj [(pid, .obj [("damage", .num (some d)), ("kills", .num (some k))])])])])]

def derivedPointsResult (now : Int) (pid : String) (d k ppf : Int) : Battle :=
  { startTime := .num (some now), duration := .num (some 0), win := .num (some (-1)),
    mapName := .str "Unknown Map",
    players := [(pid, { name := .str "Unknown Player", damage := .num (some d),
                        kills := .num (some k), points := .num (some (d + k * ppf)),
                        vehicle := .str "Unknown Vehicle" })] }

end CoreService

/-- **C4 (amended)** — Malformed-data tolerance of the reconcile path:
(1) `handleServerData` returns normally on every payload in which no
dereferenced record is `null` (the payload itself, battle records, player
records, `PlayerInfo` entries) — wrong-typed and missing fields are
tolerated; (2) a battle/player with all fields missing defaults to
`duration 0`, `win -1`, `startTime Date.now()`, `mapName "Unknown Map"`,
player `damage`/`kills`/`points` `0`, `name "Unknown Player"`,
`vehicle "Unknown Vehicle"`; (3) a missing `points` is derived as
`damage + kills * POINTS_PER_FRAG`. -/
theorem C4_malformedDataTolerance (ppf now : Int) (σ : St) (data : JVal)
    (aid pid : String) (d k : Int)
    (h : CoreService.noNullRecords data = true) :
    (∃ σ', CoreService.handleServerData ppf now σ data = .ok σ') ∧
    CoreService.handleServerData ppf now { battleStats := [], playersInfo := [] }
        (CoreService.allMissingPayload aid pid) =
      .ok { battleStats := [(aid, CoreService.allMissingResult now pid)], playersInfo := [] } ∧
    CoreService.handleServerData ppf now { battleStats := [], playersInfo := [] }
        (CoreService.derivedPointsPayload aid pid d k) =
      .ok { battleStats := [(aid, CoreService.derivedPointsResult now pid d k ppf)],
            playersInfo := [] } := by
  refine ⟨CoreService.handleServerData_total ppf now σ data h, ?_, ?_⟩
  · simp [CoreService.handleServerData, CoreService.allMissingPayload,
      CoreService.allMissingResult, CoreService.mergeBattleStats,
      CoreService.processBattle, CoreService.processPlayer, CoreService.backfill,
      CoreService.unwrapId, CoreService.battlePlayersEntries, CoreService.buildStep,
      CoreService.normalizePlayersInfo, jget, getField, getFieldD, lookupA, entries,
      jsOr, jsNullish, jsMax, truthy, isNull, typeofObject, nmax, nadd, nmul,
      toNumber, max_self, jsStrictEq, List.foldlM, oset]
  · simp [CoreService.handleServerData, CoreService.derivedPointsPayload,
      CoreService.derivedPointsResult, CoreService.mergeBattleStats,
      CoreService.processBattle, CoreService.processPlayer, CoreService.backfill,
      CoreService.unwrapId, CoreService.battlePlayersEntries, CoreService.buildStep,
      CoreService.normalizePlayersInfo, jget, getField, getFieldD, lookupA, entries,
      jsOr, jsNullish, jsMax, truthy, isNull, typeofObject, nmax, nadd, nmul,
      toNumber, max_self, jsStrictEq, List.foldlM, oset]

/-- **C4, counterexample** — the claim as stated is false: a payload with a
`null` player record inside a battle's players map (its own example) makes
`handleServerData` throw a `TypeError` reading `.kills` of `null`
(coreService.js line 102); the `null` record also throws in the
battle-history variant (battleDataManager.js line 286). -/
theorem C4_counterexample_nullPlayerThrows :
    CoreService.handleServerData 5 999 { battleStats := [], playersInfo := [] }
        (.obj [("success", .bool true),
               ("BattleStats", .obj [("a", .obj [("players", .obj [("p", .null)])])])]) =
      .error { battleStats := [], playersInfo := [] } ∧
    BattleDataManager.handleServerData 5 999 { battleStats := [], playersInfo := [] }
        (.obj [("success", .bool true),
               ("BattleStats", .obj [("a", .obj [("players", .obj [("p", .null)])])])]) =
      .error { battleStats := [], playersInfo := [] } := ⟨rfl, rfl⟩

/-- Witness for C4 at a concrete malformed (but `null`-free) payload: a
battle record of the wrong type entirely (a number) and a player whose fields
have wrong types. -/
theorem C4_witness :
    CoreService.noNullRecords
        (.obj [("success", .bool true),
               ("BattleStats", .obj [("a", .num (some 7)),
                 ("b", .obj [("players", .obj [("p", .obj [("damage", .str "oops")])])])]),
               ("PlayerInfo", .obj [("p", .num (some 3))])]) = true ∧
    (∃ σ', CoreService.handleServerData 5 999 { battleStats := [], playersInfo := [] }
        (.obj [("success", .bool true),
               ("BattleStats", .obj [("a", .num (some 7)),
                 ("b", .obj [("players", .obj [("p", .obj [("damage", .str "oops")])])])]),
               ("PlayerInfo", .obj [("p", .num (some 3))])]) = .ok σ') :=
  ⟨by decide,
   (C4_malformedDataTolerance 5 999 { battleStats := [], playersInfo := [] }
      (.obj [("success", .bool true),
             ("BattleStats", .obj [("a", .num (some 7)),
               ("b", .obj [("players", .obj [("p", .obj [("damage", .str "oops")])])])]),
             ("PlayerInfo", .obj [("p", .num (some 3))])]) "x" "y" 0 0 (by decide)).1⟩

/-! ### C2: per-field merge rule -/

namespace JS

theorem jsOr_num_zero (n : Int) :
    jsOr (.num (some n)) (.num (some 0)) = .num (some n) := by
  by_cases h : n = 0
  · subst h; rfl
  · simp [jsOr, truthy, h]

end JS

namespace CoreService

theorem handleServerData_ok_merge (ppf now : Int) (σ σ' : St) (data : JVal)
    (h : handleServerData ppf now σ data = .ok σ')
    (hts : truthy (getFieldD data "success") = true)
    (htb : truthy (getFieldD data "BattleStats") = true) :
    mergeBattleStats ppf now σ (getFieldD data "BattleStats") = .ok σ'.battleStats := by
  rcases handleServerData_ok_battleStats ppf now σ σ' data h with heq | ⟨_, _, hm⟩
  · unfold handleServerData at h
    cases hs : jget data "success" with
    | error u => rw [hs] at h; simp at h
    | ok s =>
      rw [hs] at h
      have hsv : s = getFieldD data "success" := by
        unfold jget at hs
        cases hgf : getField data "success" with
        | none => rw [hgf] at hs; simp at hs
        | some x => rw [hgf] at hs; simp at hs; simp [getFieldD, hgf, hs]
      simp only [except_mapError_ok, except_bind_ok] at h
      rw [if_pos (hsv ▸ hts), if_pos htb] at h
      cases hm : mergeBattleStats ppf now σ (getFieldD data "BattleStats") with
      | error u => rw [hm] at h; simp at h
      | ok final =>
        rw [hm] at h
        simp only [except_mapError_ok, except_bind_ok, except_pure] at h
        by_cases hpi : truthy (getFieldD data "PlayerInfo")
        · rw [if_pos hpi] at h
          cases hn : normalizePlayersInfo (getFieldD data "PlayerInfo") with
          | error u => rw [hn] at h; simp at h
          | ok pi =>
            rw [hn] at h
            simp only [except_mapError_ok, except_bind_ok, except_pure] at h
            cases h
            rfl
        · rw [if_neg hpi] at h
          try simp only [except_pure] at h
          cases h
          rfl
  · exact hm

end CoreService

/-- **C2** — Per-field merge rule of the reconcile path.  For an arena
present both locally and in the snapshot (with type-correct incoming
fields): the merged player's `damage`/`kills`/`points` are
`max(local, incoming)` (where a missing incoming `points` would be derived;
here it is supplied), `duration` is `max(local, incoming)`, `win` is the
incoming value unless it is `-1` (then the local value is kept), and
`mapName` keeps the local value iff it is set and not the `'Unknown Map'`
sentinel, else takes the incoming one; consequently the merged
`damage`/`kills`/`points`/`duration` are each ≥ their local values, so they
never decrease across successive reconciles. -/
theorem C2_perFieldMergeRule (ppf now : Int) (σ σ' : St) (data : JVal)
    (bsl psl : List (String × JVal)) (aid pid : String) (bv pv : JVal)
    (lb : Battle) (lp : Player)
    (sd sw sdm skl spt ld lw ldm lkl lpt : Int) (sm lm : String)
    (hok : CoreService.handleServerData ppf now σ data = .ok σ')
    (hts : truthy (getFieldD data "success") = true)
    (hbs : getFieldD data "BattleStats" = .obj bsl)
    (hnd : keysNodup bsl = true)
    (hba : lookupA bsl aid = some bv)
    (hlb : lookupA σ.battleStats aid = some lb)
    (hdur : getFieldD (CoreService.unwrapId bv) "duration" = .num (some sd))
    (hwin : getFieldD (CoreService.unwrapId bv) "win" = .num (some sw))
    (hmap : getFieldD (CoreService.unwrapId bv) "mapName" = .str sm)
    (hsm : sm ≠ "")
    (hpl : getFieldD (CoreService.unwrapId bv) "players" = .obj psl)
    (hpnd : keysNodup psl = true)
    (hpv : lookupA psl pid = some pv)
    (hpdm : getFieldD (CoreService.unwrapId pv) "damage" = .num (some sdm))
    (hpk : getFieldD (CoreService.unwrapId pv) "kills" = .num (some skl))
    (hppt : getFieldD (CoreService.unwrapId pv) "points" = .num (some spt))
    (hld : lb.duration = .num (some ld))
    (hlw : lb.win = .num (some lw))
    (hlm : lb.mapName = .str lm)
    (hlp : lookupA lb.players pid = some lp)
    (hlpd : lp.damage = .num (some ldm))
    (hlpk : lp.kills = .num (some lkl))
    (hlpp : lp.points = .num (some lpt)) :
    ∃ mb, lookupA σ'.battleStats aid = some mb ∧
      mb.duration = .num (some (max ld sd)) ∧
      mb.win = .num (some (if sw = -1 then lw else sw)) ∧
      mb.mapName = (if lm ≠ "" ∧ lm ≠ "Unknown Map" then JVal.str lm else .str sm) ∧
      (∃ mp, lookupA mb.players pid = some mp ∧
        mp.damage = .num (some (max sdm ldm)) ∧
        mp.kills = .num (some (max skl lkl)) ∧
        mp.points = .num (some (max spt lpt)) ∧
        mp.name = jsOr (getFieldD (CoreService.unwrapId pv) "name")
          (jsOr lp.name (jsOr ((lookupA σ.playersInfo pid).getD .null)
            (.str "Unknown Player"))) ∧
        ldm ≤ max sdm ldm ∧ lkl ≤ max skl lkl ∧ lpt ≤ max spt lpt) ∧
      ld ≤ max ld sd := by
  have htb : truthy (getFieldD data "BattleStats") = true := by rw [hbs]; rfl
  have hm := CoreService.handleServerData_ok_merge ppf now σ σ' data hok hts htb
  rw [hbs] at hm
  rw [CoreService.mergeBattleStats_eq] at hm
  cases hfold : (entries (JVal.obj bsl)).foldlM
      (CoreService.buildStep (CoreService.processBattle ppf now σ)) [] with
  | error u => rw [hfold] at hm; simp at hm
  | ok nm =>
    rw [hfold] at hm
    simp only [except_bind_ok, except_pure, Except.ok.injEq] at hm
    have hent : entries (JVal.obj bsl) = bsl := rfl
    rw [hent] at hfold
    obtain ⟨mb, hmb, hnmaid⟩ :=
      CoreService.foldlM_buildStep_mem _ bsl [] nm hfold hnd aid bv hba
    -- the final battle map keeps the merged record for aid
    have hfinal : lookupA σ'.battleStats aid = some mb := by
      rw [← hm]
      rw [CoreService.backfill_containsKey σ.battleStats nm aid
        (by simp [containsKey, hnmaid])]
      exact hnmaid
    -- now evaluate processBattle at the typed hypotheses
    have hbdnn : CoreService.unwrapId bv ≠ .null := by
      intro hh; rw [hh] at hdur; simp [getFieldD, getField] at hdur
    have hppe : CoreService.battlePlayersEntries bv = psl := by
      unfold CoreService.battlePlayersEntries
      rw [show isNull (CoreService.unwrapId bv) = false by
        cases hu : CoreService.unwrapId bv <;> simp [isNull] <;> exact hbdnn hu]
      simp only [Bool.false_eq_true, if_false]
      rw [hpl]
      rfl
    have hpdnn : CoreService.unwrapId pv ≠ .null := by
      intro hh; rw [hh] at hpdm; simp [getFieldD, getField] at hpdm
    -- evaluate the player loop inside processBattle
    simp only [CoreService.processBattle, hppe] at hmb
    cases hpfold : psl.foldlM
        (CoreService.buildStep (CoreService.processPlayer ppf
          (match lookupA σ.battleStats aid with | some b => b.players | none => [])
          σ.playersInfo)) [] with
    | error u => rw [hpfold] at hmb; simp at hmb
    | ok players =>
      rw [hpfold] at hmb
      rw [jget_ok_of_ne_null _ "duration" hbdnn, jget_ok_of_ne_null _ "win" hbdnn,
          jget_ok_of_ne_null _ "mapName" hbdnn, jget_ok_of_ne_null _ "startTime" hbdnn] at hmb
      simp only [except_bind_ok, except_pure] at hmb
      obtain ⟨mp, hmp, hplaid⟩ :=
        CoreService.foldlM_buildStep_mem _ psl [] players hpfold hpnd pid pv hpv
      -- evaluate processPlayer on the merge branch
      simp only [CoreService.processPlayer, hlb] at hmp
      rw [jget_ok_of_ne_null _ "kills" hpdnn, jget_ok_of_ne_null _ "damage" hpdnn,
          jget_ok_of_ne_null _ "points" hpdnn] at hmp
      rw [hpk, hpdm, hppt] at hmp
      simp only [except_bind_ok, hlp, except_pure] at hmp
      cases hmp
      cases hmb
      refine ⟨_, hfinal, ?_, ?_, ?_, ⟨_, hplaid, ?_, ?_, ?_, rfl, ?_, ?_, ?_⟩, le_max_left _ _⟩
      · simp [hlb, hld, hdur, jsNullish, isNull, jsMax, toNumber, nmax]
      · by_cases hswv : sw = -1
        · simp [hlb, hlw, hwin, hswv, jsNullish, isNull]
        · simp [hlb, hlw, hwin, hswv, jsNullish, isNull]
      · by_cases h1 : lm = ""
        · simp [hlb, hlm, hmap, h1, truthy, jsOr, jsStrictEq, hsm]
        · by_cases h2 : lm = "Unknown Map"
          · simp [hlb, hlm, hmap, h1, h2, truthy, jsStrictEq, jsOr, hsm]
          · simp [hlb, hlm, hmap, h1, h2, truthy, jsStrictEq, jsOr]
      · simp only [hlpd, jsOr_num_zero]
        simp [jsMax, toNumber, nmax]
      · simp only [hlpk, jsOr_num_zero]
        simp [jsMax, toNumber, nmax]
      · simp only [hlpp, jsOr_num_zero]
        simp [jsMax, toNumber, nmax]
      · exact le_max_right _ _
      · exact le_max_right _ _
      · exact le_max_right _ _

def c2LocalPlayer : Player :=
  { name := .str "p", damage := .num (some 100), kills := .num (some 1),
    points := .num (some 105), vehicle := .str "T-34" }

def c2LocalBattle : Battle :=
  { startTime := .num (some 5), duration := .num (some 100), win := .num (some (-1)),
    mapName := .str "Karelia", players := [("10", c2LocalPlayer)] }

def c2Local : St :=
  { battleStats := [("A", c2LocalBattle)], playersInfo := [("10", .str "p")] }

def c2PlayerDTO : JVal :=
  .obj [("damage", .num (some 50)), ("kills", .num (some 2)), ("points", .num (some 60))]

def c2BattleDTO : JVal :=
  .obj [("duration", .num (some 300)), ("win", .num (some 1)),
        ("mapName", .str "Prokhorovka"), ("players", .obj [("10", c2PlayerDTO)])]

def c2Data : JVal :=
  .obj [("success", .bool true), ("BattleStats", .obj [("A", c2BattleDTO)])]

def c2Out : St :=
  { battleStats :=
      [("A", { startTime := .num (some 5), duration := .num (some 300),
               win := .num (some 1), mapName := .str "Karelia",
               players := [("10", { name := .str "p", damage := .num (some 100),
                                    kills := .num (some 2), points := .num (some 105),
                                    vehicle := .str "T-34" })] })],
    playersInfo := [("10", .str "p")] }

/-- Witness for C2 at a concrete local state and snapshot. -/
theorem C2_witness :
    ∃ mb, lookupA c2Out.battleStats "A" = some mb ∧
      mb.duration = .num (some (max 100 300)) ∧
      mb.win = .num (some (if (1 : Int) = -1 then -1 else 1)) ∧
      mb.mapName = (if "Karelia" ≠ "" ∧ "Karelia" ≠ "Unknown Map"
                    then JVal.str "Karelia" else .str "Prokhorovka") ∧
      (∃ mp, lookupA mb.players "10" = some mp ∧
        mp.damage = .num (some (max 50 100)) ∧
        mp.kills = .num (some (max 2 1)) ∧
        mp.points = .num (some (max 60 105)) ∧
        mp.name = jsOr (getFieldD (CoreService.unwrapId c2PlayerDTO) "name")
          (jsOr c2LocalPlayer.name (jsOr ((lookupA c2Local.playersInfo "10").getD .null)
            (.str "Unknown Player"))) ∧
        (100 : Int) ≤ max 50 100 ∧ (1 : Int) ≤ max 2 1 ∧ (105 : Int) ≤ max 60 105) ∧
      (100 : Int) ≤ max 100 300 :=
  C2_perFieldMergeRule 5 999 c2Local c2Out c2Data [("A", c2BattleDTO)]
    [("10", c2PlayerDTO)] "A" "10" c2BattleDTO c2PlayerDTO c2LocalBattle c2LocalPlayer
    300 1 50 2 60 100 (-1) 100 1 105 "Prokhorovka" "Karelia"
    rfl rfl rfl rfl rfl rfl rfl rfl rfl (by decide) rfl rfl rfl rfl rfl rfl rfl rfl rfl
    rfl rfl rfl rfl

/-! ### C5: the import path and its (uninvoked) validators -/

namespace BattleDataManager

theorem fieldCheck_str (pfs : List (String × JVal)) (f : String) :
    ((hasProp (.obj pfs) f
      && (typeofStr (getFieldD (.obj pfs) f) == "string")) = true) ↔
    ∃ s, lookupA pfs f = some (.str s) := by
  cases hl : lookupA pfs f with
  | none =>
    simp [hasProp, containsKey, getFieldD, getField, hl, typeofStr]
  | some v =>
    cases v <;> simp [hasProp, containsKey, getFieldD, getField, hl, typeofStr]

theorem fieldCheck_num (pfs : List (String × JVal)) (f : String) :
    ((hasProp (.obj pfs) f
      && (typeofStr (getFieldD (.obj pfs) f) == "number")) = true) ↔
    ∃ n, lookupA pfs f = some (.num n) := by
  cases hl : lookupA pfs f with
  | none =>
    simp [hasProp, containsKey, getFieldD, getField, hl, typeofStr]
  | some v =>
    cases v <;> simp [hasProp, containsKey, getFieldD, getField, hl, typeofStr]

end BattleDataManager

/-- **C5 (amended)** — All-or-nothing import, as the code actually gates it:
`importData` validates only that the payload is a truthy `object`
(`isValidImportData`); every object payload — whatever its records contain —
is accepted and handed to the backend unchanged, no local mutation happens in
either case, and only non-object payloads are rejected (and then nothing is
sent).  The per-record checks exist in `validatePlayerData` (characterized
here: a player object validates iff `name`/`vehicle` are present strings and
`damage`/`kills`/`points` present numbers) but `importData` never invokes
them. -/
theorem C5_importAllOrNothing_amended (σ : St) (fs pfs : List (String × JVal))
    (payload : JVal) :
    BattleDataManager.importData σ (.obj fs) = (σ, true, some (.obj fs)) ∧
    BattleDataManager.importData σ payload =
      (σ, truthy payload && typeofObject payload,
       if (truthy payload && typeofObject payload) = true then some payload else none) ∧
    (BattleDataManager.validatePlayerData (.obj pfs) = true ↔
      ((∃ s, lookupA pfs "name" = some (.str s)) ∧
       (∃ n, lookupA pfs "damage" = some (.num n)) ∧
       (∃ n, lookupA pfs "kills" = some (.num n)) ∧
       (∃ n, lookupA pfs "points" = some (.num n)) ∧
       (∃ s, lookupA pfs "vehicle" = some (.str s)))) := by
  refine ⟨rfl, ?_, ?_⟩
  · by_cases h : (truthy payload && typeofObject payload) = true
    · simp [BattleDataManager.importData, BattleDataManager.isValidImportData, h]
    · simp [BattleDataManager.importData, BattleDataManager.isValidImportData, h,
        Bool.not_eq_true] at h ⊢
      try simp [h]
  · rw [show BattleDataManager.validatePlayerData (.obj pfs) =
        (["name", "damage", "kills", "points", "vehicle"].all (fun f =>
          BattleDataManager.hasProp (.obj pfs) f
            && (BattleDataManager.typeofStr (getFieldD (.obj pfs) f)
                == (lookupA BattleDataManager.playerFieldTypes f).getD ""))) from rfl]
    simp only [List.all_cons, List.all_nil, Bool.and_eq_true, Bool.and_true]
    rw [show (lookupA BattleDataManager.playerFieldTypes "name").getD "" = "string" from rfl,
        show (lookupA BattleDataManager.playerFieldTypes "damage").getD "" = "number" from rfl,
        show (lookupA BattleDataManager.playerFieldTypes "kills").getD "" = "number" from rfl,
        show (lookupA BattleDataManager.playerFieldTypes "points").getD "" = "number" from rfl,
        show (lookupA BattleDataManager.playerFieldTypes "vehicle").getD "" = "string" from rfl]
    rw [← Bool.and_eq_true (BattleDataManager.hasProp (.obj pfs) "name") _,
        ← Bool.and_eq_true (BattleDataManager.hasProp (.obj pfs) "damage") _,
        ← Bool.and_eq_true (BattleDataManager.hasProp (.obj pfs) "kills") _,
        ← Bool.and_eq_true (BattleDataManager.hasProp (.obj pfs) "points") _,
        ← Bool.and_eq_true (BattleDataManager.hasProp (.obj pfs) "vehicle") _]
    rw [BattleDataManager.fieldCheck_str pfs "name",
        BattleDataManager.fieldCheck_num pfs "damage",
        BattleDataManager.fieldCheck_num pfs "kills",
        BattleDataManager.fieldCheck_num pfs "points",
        BattleDataManager.fieldCheck_str pfs "vehicle"]

/-- **C5, counterexample** — a payload whose battle `"X"` has a player
(`"2"`) failing the required-field/type checks is nevertheless accepted by
`importData` and handed to the backend: `validateBattleData` /
`validatePlayerData` are never called on the import path, so the claimed
wholesale rejection does not happen. -/
theorem C5_counterexample_invalidPlayerStillSent :
    BattleDataManager.validatePlayerData (.obj [("name", .num (some 5))]) = false ∧
    BattleDataManager.validateBattleData
      (.obj [("startTime", .num (some 1)), ("duration", .num (some 2)),
             ("win", .num (some 1)), ("mapName", .str "m"),
             ("players", .obj [("1", .obj [("name", .str "a"), ("damage", .num (some 1)),
                ("kills", .num (some 0)), ("points", .num (some 1)),
                ("vehicle", .str "v")]),
               ("2", .obj [("name", .num (some 5))])])]) = false ∧
    BattleDataManager.importData { battleStats := [], playersInfo := [] }
      (.obj [("X", .obj [("startTime", .num (some 1)), ("duration", .num (some 2)),
             ("win", .num (some 1)), ("mapName", .str "m"),
             ("players", .obj [("1", .obj [("name", .str "a"), ("damage", .num (some 1)),
                ("kills", .num (some 0)), ("points", .num (some 1)),
                ("vehicle", .str "v")]),
               ("2", .obj [("name", .num (some 5))])])])]) =
      ({ battleStats := [], playersInfo := [] }, true,
       some (.obj [("X", .obj [("startTime", .num (some 1)), ("duration", .num (some 2)),
             ("win", .num (some 1)), ("mapName", .str "m"),
             ("players", .obj [("1", .obj [("name", .str "a"), ("damage", .num (some 1)),
                ("kills", .num (some 0)), ("points", .num (some 1)),
                ("vehicle", .str "v")]),
               ("2", .obj [("name", .num (some 5))])])])])) := by
  refine ⟨by decide, by decide, rfl⟩

/-! ### C8: the hangar registration guard -/

namespace CoreService

/-- The state after `handleHangarStatus` resolves the SDK id but before (or
without) registering: `curentPlayerId` set, `curentArenaId` cleared. -/
def hangarProbed (σ : CoreState) (n : Int) : CoreState :=
  { σ with curentPlayerId := .num (some n), curentArenaId := .null }

/-- `hangarProbed` plus the registration
`this.PlayersInfo[this.curentPlayerId] = name`. -/
def hangarRegistered (σ : CoreState) (n : Int) (name : JVal) : CoreState :=
  let npi := oset σ.stats.playersInfo (toString n) name
  { hangarProbed σ n with stats := { σ.stats with playersInfo := npi } }

end CoreService

/-- **C8 (amended)** — Hangar registration guard: on an entering-hangar
event with the needs-registration flag set and a non-null SDK player id, the
player is registered in `PlayersInfo` (and a debounced sync scheduled)
unless the guard applies; the guard skips when in a platoon with more than 3
tracked numeric-keyed players, or when not in a platoon and *at least one*
player is already tracked; when skipped, `PlayersInfo` is unchanged and no
sync is scheduled. -/
theorem C8_hangarGuard_amended (σ : CoreState) (n : Int) (name : JVal)
    (hneed : σ.needToAddPlayers = true) :
    CoreService.handleHangarStatus σ true (.num (some n)) name =
      (if ((σ.isInPlatoon
            && decide ((CoreService.getPlayersIds σ.stats.playersInfo).length > 3))
          || (!σ.isInPlatoon
            && decide (1 ≤ (CoreService.getPlayersIds σ.stats.playersInfo).length))) = true
       then (CoreService.hangarProbed σ n, false)
       else (CoreService.hangarRegistered σ n name, true)) := by
  by_cases hg : ((σ.isInPlatoon
      && decide ((CoreService.getPlayersIds σ.stats.playersInfo).length > 3))
    || (!σ.isInPlatoon
      && decide (1 ≤ (CoreService.getPlayersIds σ.stats.playersInfo).length))) = true
  · rw [if_pos hg]
    simp only [CoreService.handleHangarStatus, hneed, Bool.not_true, Bool.false_eq_true,
      if_false, if_true, jsStrictEq]
    rw [if_pos (by simpa [Nat.lt_iff_add_one_le] using hg)]
    simp [CoreService.hangarProbed, hneed]
  · rw [if_neg hg]
    simp only [CoreService.handleHangarStatus, hneed, Bool.not_true, Bool.false_eq_true,
      if_false, if_true, jsStrictEq]
    rw [if_neg (by simpa [Nat.lt_iff_add_one_le] using hg)]
    simp [CoreService.hangarProbed, CoreService.hangarRegistered, jsToString, hneed]

def c8State : CoreState :=
  { stats := { battleStats := [], playersInfo := [("111", .str "A")] },
    curentPlayerId := .null, curentArenaId := .null, curentVehicle := .null,
    isInPlatoon := false, needToAddPlayers := true }

/-- **C8, counterexample** — not in a platoon with exactly one tracked
player: the claim's guard ("more than one player already tracked") does not
apply, so the claim predicts registration; the code skips (the threshold is
`>= 1`, not `> 1`): the returned state has `PlayersInfo` unchanged (no entry
for id 222) and no sync scheduled. -/
theorem C8_counterexample_oneTrackedPlayerSkips :
    c8State.isInPlatoon = false ∧
    (CoreService.getPlayersIds c8State.stats.playersInfo).length = 1 ∧
    CoreService.handleHangarStatus c8State true (.num (some 222)) (.str "B") =
      (CoreService.hangarProbed c8State 222, false) ∧
    lookupA (CoreService.hangarProbed c8State 222).stats.playersInfo "222" = none := by
  refine ⟨rfl, by decide, rfl, rfl⟩

/-- Witness for C8: the concrete skip case at one tracked player. -/
theorem C8_witness :
    c8State.needToAddPlayers = true ∧
    CoreService.handleHangarStatus c8State true (.num (some 222)) (.str "B") =
      (if ((c8State.isInPlatoon
            && decide ((CoreService.getPlayersIds c8State.stats.playersInfo).length > 3))
          || (!c8State.isInPlatoon
            && decide (1 ≤ (CoreService.getPlayersIds c8State.stats.playersInfo).length))) = true
       then (CoreService.hangarProbed c8State 222, false)
       else (CoreService.hangarRegistered c8State 222 (.str "B"), true)) :=
  ⟨rfl, C8_hangarGuard_amended c8State 222 (.str "B") rfl⟩

/-! ### C6 and C10: battle-result processing -/

namespace CoreService

theorem applyMapBackfill_players (arenaTag : JVal) (b : Battle) :
    (applyMapBackfill arenaTag b).players = b.players := by
  unfold applyMapBackfill
  split <;> try rfl
  split <;> rfl

theorem applyMapBackfill_duration (arenaTag : JVal) (b : Battle) :
    (applyMapBackfill arenaTag b).duration = b.duration := by
  unfold applyMapBackfill
  split <;> try rfl
  split <;> rfl

theorem applyMapBackfill_startTime (arenaTag : JVal) (b : Battle) :
    (applyMapBackfill arenaTag b).startTime = b.startTime := by
  unfold applyMapBackfill
  split <;> try rfl
  split <;> rfl

theorem applyMapBackfill_win (arenaTag : JVal) (b : Battle) :
    (applyMapBackfill arenaTag b).win = b.win := by
  unfold applyMapBackfill
  split <;> try rfl
  split <;> rfl

theorem applyMapBackfill_mapName (arenaTag : JVal) (b : Battle) (m : String)
    (hm : b.mapName = .str m) (hm0 : m ≠ "") :
    (applyMapBackfill arenaTag b).mapName =
      (if m = "Unknown Map" ∧ truthy arenaTag = true then arenaTag else .str m) := by
  unfold applyMapBackfill
  by_cases ht : truthy arenaTag
  · rw [if_pos ht]
    by_cases hsent : m = "Unknown Map"
    · rw [if_pos (by simp [hm, hsent, jsStrictEq])]
      simp [hsent, ht]
    · rw [if_neg (by simp [hm, truthy, jsStrictEq, hm0, hsent])]
      simp [hm, hsent]
  · rw [if_neg ht]
    simp [hm, ht]

theorem applyWinRule_players (pt wt : Option Int) (b : Battle) :
    (applyWinRule pt wt b).players = b.players := by
  unfold applyWinRule
  split <;> try rfl
  split <;> try rfl
  split <;> rfl

theorem applyWinRule_duration (pt wt : Option Int) (b : Battle) :
    (applyWinRule pt wt b).duration = b.duration := by
  unfold applyWinRule
  split <;> try rfl
  split <;> try rfl
  split <;> rfl

theorem applyWinRule_startTime (pt wt : Option Int) (b : Battle) :
    (applyWinRule pt wt b).startTime = b.startTime := by
  unfold applyWinRule
  split <;> try rfl
  split <;> try rfl
  split <;> rfl

theorem applyWinRule_mapName (pt wt : Option Int) (b : Battle) :
    (applyWinRule pt wt b).mapName = b.mapName := by
  unfold applyWinRule
  split <;> try rfl
  split <;> try rfl
  split <;> rfl

theorem applyWinRule_win (t w : Int) (b : Battle) (ht0 : t ≠ 0) :
    (applyWinRule (some t) (some w) b).win =
      .num (some (if t = w then 1 else if w = 0 then 2 else 0)) := by
  unfold applyWinRule
  rw [if_pos (by simp [ht0])]
  by_cases htw : t = w
  · rw [if_pos (by simp [htw])]
    simp [htw]
  · rw [if_neg (by simp [htw])]
    by_cases hw0 : w = 0
    · rw [if_pos (by simp [hw0])]
      simp [htw, hw0, ht0]
    · rw [if_neg (by simp [hw0])]
      simp [htw, hw0, ht0]

/-- The state `handleBattleResult` leaves behind when it drops an event for
an unknown arena: only the tracker fields have been touched. -/
def droppedResultState (σ : CoreState) (acc : JVal) : CoreState :=
  { σ with curentPlayerId := acc, needToAddPlayers := false }

/-- The state after a processed battle result: tracker fields set and the
arena's record replaced by `mb`. -/
def battleResultOut (σ : CoreState) (aKey : String) (mb : Battle) (acc : JVal) :
    CoreState :=
  let nst : St := { σ.stats with battleStats := oset σ.stats.battleStats aKey mb }
  { σ with stats := nst, curentPlayerId := acc, needToAddPlayers := false }

end CoreService

/-- **C10** — A battle-result event whose `arenaUniqueID` is not a key of
`BattleStats` is dropped without a throw and leaves `BattleStats` and
`PlayersInfo` untouched, but the tracker has already been mutated:
`curentPlayerId` is set to `result.personal.avatar.accountDBID` and
`needToAddPlayers` to `false` (and no sync is scheduled). -/
theorem C10_droppedResultStillMutatesTracker (ppf : Int) (σ : CoreState)
    (result : JVal)
    (hres : truthy result = true)
    (hveh : truthy (getFieldD result "vehicles") = true)
    (hply : truthy (getFieldD result "players") = true)
    (haid : truthy (getFieldD result "arenaUniqueID") = true)
    (hper : getFieldD result "personal" ≠ .null)
    (hava : getFieldD (getFieldD result "personal") "avatar" ≠ .null)
    (habsent : lookupA σ.stats.battleStats
      (jsToString (getFieldD result "arenaUniqueID")) = none) :
    CoreService.handleBattleResult ppf σ result =
      .ok (CoreService.droppedResultState σ
        (getFieldD (getFieldD (getFieldD result "personal") "avatar") "accountDBID"),
        false) ∧
    (CoreService.droppedResultState σ
      (getFieldD (getFieldD (getFieldD result "personal") "avatar") "accountDBID")).stats
      = σ.stats := by
  refine ⟨?_, rfl⟩
  unfold CoreService.handleBattleResult
  rw [if_neg (by rw [hres, hveh, hply]; simp)]
  rw [if_neg (by rw [haid]; simp)]
  simp only [jget_ok_of_ne_null (getFieldD result "personal") "avatar" hper,
    jget_ok_of_ne_null (getFieldD (getFieldD result "personal") "avatar") "accountDBID" hava,
    except_mapError_ok, except_bind_ok, habsent]
  rfl

def c10State : CoreState :=
  { stats := { battleStats := [], playersInfo := [] },
    curentPlayerId := .null, curentArenaId := .null, curentVehicle := .null,
    isInPlatoon := false, needToAddPlayers := true }

def c10Result : JVal :=
  .obj [("vehicles", .obj []), ("players", .obj []),
        ("arenaUniqueID", .num (some 42)),
        ("personal", .obj [("avatar", .obj [("accountDBID", .num (some 10))])])]

/-- Witness for C10: a well-formed result for an arena the store has never
seen. -/
theorem C10_witness :
    CoreService.handleBattleResult 5 c10State c10Result =
      .ok (CoreService.droppedResultState c10State (.num (some 10)), false) ∧
    (CoreService.droppedResultState c10State (.num (some 10))).stats = c10State.stats :=
  C10_droppedResultStillMutatesTracker 5 c10State c10Result rfl rfl rfl rfl
    (by intro h; exact JVal.noConfusion h) (by intro h; exact JVal.noConfusion h) rfl

/-- **C6** — Battle-result resolution for an arena present in `BattleStats`,
at a well-formed result (numeric team/winner with a non-zero player team, a
string local map name, and a matching vehicle entry): `duration` is set to
`result.common.duration` as-is; `win` is `1` on a team match, `2` when the
winner team is `0`, `0` otherwise; `mapName` is backfilled from
`result.common.arenaTag` only when it is still the `'Unknown Map'` sentinel
(and the tag is truthy); and the local player's `damage`/`kills`/`points`
are overwritten — not max-merged — with the vehicle's `damageDealt`,
`kills`, and `damageDealt + kills * POINTS_PER_FRAG`, the other player
fields being kept. -/
theorem C6_battleResultResolution (ppf : Int) (σ : CoreState) (result : JVal)
    (lb : Battle) (lp : Player) (pidN t w dd kk : Int) (m gid : String) (veh : JVal)
    (hres : truthy result = true)
    (hply : truthy (getFieldD result "players") = true)
    (haid : truthy (getFieldD result "arenaUniqueID") = true)
    (hacc : getFieldD (getFieldD (getFieldD result "personal") "avatar") "accountDBID"
      = .num (some pidN))
    (hper : getFieldD result "personal" ≠ .null)
    (hava : getFieldD (getFieldD result "personal") "avatar" ≠ .null)
    (hfound : lookupA σ.stats.battleStats
      (jsToString (getFieldD result "arenaUniqueID")) = some lb)
    (hcom : getFieldD result "common" ≠ .null)
    (hteam : getFieldD (getFieldD (getFieldD result "players")
      (jsToString (JVal.num (some pidN)))) "team" = .num (some t))
    (ht0 : t ≠ 0)
    (hwt : getFieldD (getFieldD result "common") "winnerTeam" = .num (some w))
    (hm : lb.mapName = .str m)
    (hm0 : m ≠ "")
    (hvehs : getFieldD result "vehicles" = .obj [(gid, .arr [veh])])
    (hv1 : getFieldD veh "accountDBID" = .num (some pidN))
    (hv2 : getFieldD veh "damageDealt" = .num (some dd))
    (hv3 : getFieldD veh "kills" = .num (some kk))
    (hlp : lookupA lb.players (jsToString (JVal.num (some pidN))) = some lp) :
    ∃ mb, CoreService.handleBattleResult ppf σ result =
        .ok (CoreService.battleResultOut σ
              (jsToString (getFieldD result "arenaUniqueID")) mb (.num (some pidN)),
             containsKey σ.stats.playersInfo (jsToString (JVal.num (some pidN)))) ∧
      mb.duration = getFieldD (getFieldD result "common") "duration" ∧
      mb.win = .num (some (if t = w then 1 else if w = 0 then 2 else 0)) ∧
      mb.mapName = (if m = "Unknown Map"
            ∧ truthy (getFieldD (getFieldD result "common") "arenaTag") = true
          then getFieldD (getFieldD result "common") "arenaTag" else .str m) ∧
      mb.startTime = lb.startTime ∧
      (∃ mp, lookupA mb.players (jsToString (JVal.num (some pidN))) = some mp ∧
        mp.damage = .num (some dd) ∧ mp.kills = .num (some kk) ∧
        mp.points = .num (some (dd + kk * ppf)) ∧
        mp.name = lp.name ∧ mp.vehicle = lp.vehicle) := by
  have hveh : truthy (getFieldD result "vehicles") = true := by rw [hvehs]; rfl
  have hpe : getFieldD (getFieldD result "players")
      (jsToString (JVal.num (some pidN))) ≠ .null := by
    intro hh; rw [hh] at hteam; simp [getFieldD, getField] at hteam
  have hvn : veh ≠ .null := by
    intro hh; rw [hh] at hv1; simp [getFieldD, getField] at hv1
  refine ⟨?mbv, ?hrun, ?hdur, ?hwin, ?hmap, ?hst, ?hpl⟩
  case hrun =>
    unfold CoreService.handleBattleResult
    rw [if_neg (by rw [hres, hveh, hply]; simp)]
    rw [if_neg (by rw [haid]; simp)]
    simp only [jget_ok_of_ne_null (getFieldD result "personal") "avatar" hper,
      jget_ok_of_ne_null (getFieldD (getFieldD result "personal") "avatar")
        "accountDBID" hava,
      except_mapError_ok, except_bind_ok, hacc]
    simp only [hfound]
    simp only [jget_ok_of_ne_null (getFieldD result "common") "duration" hcom,
      except_mapError_ok, except_bind_ok]
    simp only [jget_ok_of_ne_null (getFieldD (getFieldD result "players")
        (jsToString (JVal.num (some pidN)))) "team" hpe,
      except_mapError_ok, except_bind_ok]
    simp only [hteam, hwt, toNumber]
    rw [hvehs]
    simp only [entries, CoreService.vehiclesLoop, CoreService.iterateOf,
      CoreService.vehicleScan]
    simp only [jget_ok_of_ne_null veh "accountDBID" hvn, except_bind_ok, hv1]
    simp only [jsStrictEq, beq_self_eq_true, if_true]
    rw [CoreService.applyWinRule_players, CoreService.applyMapBackfill_players]
    simp only [hlp]
    simp only [CoreService.isExistsPlayerRecord, CoreService.battleResultOut, isNull,
      Bool.not_false, Bool.true_and]
    exact rfl
  case hdur =>
    simp only [CoreService.applyWinRule_duration, CoreService.applyMapBackfill_duration]
  case hwin =>
    simp only [CoreService.applyWinRule_win _ _ _ ht0]
  case hmap =>
    simp only [CoreService.applyWinRule_mapName]
    exact CoreService.applyMapBackfill_mapName _ _ m hm hm0
  case hst =>
    simp only [CoreService.applyWinRule_startTime, CoreService.applyMapBackfill_startTime]
  case hpl =>
    simp only [lookupA_oset, if_pos rfl, Option.some.injEq]
    refine ⟨_, rfl, ?_, ?_, ?_, rfl, rfl⟩
    · exact hv2
    · exact hv3
    · rw [hv2, hv3]
      simp [jsAdd, jsMul, toPrimitive, toNumber, nadd, nmul]

def c6LocalPlayer : Player :=
  { name := .str "p", damage := .num (some 100), kills := .num (some 1),
    points := .num (some 105), vehicle := .str "T-34" }

def c6LocalBattle : Battle :=
  { startTime := .num (some 5), duration := .num (some 0), win := .num (some (-1)),
    mapName := .str "Unknown Map", players := [("10", c6LocalPlayer)] }

def c6State : CoreState :=
  { stats := { battleStats := [("42", c6LocalBattle)], playersInfo := [("10", .str "p")] },
    curentPlayerId := .null, curentArenaId := .null, curentVehicle := .null,
    isInPlatoon := false, needToAddPlayers := true }

def c6Veh : JVal :=
  .obj [("accountDBID", .num (some 10)), ("damageDealt", .num (some 1234)),
        ("kills", .num (some 3))]

def c6Result : JVal :=
  .obj [("vehicles", .obj [("77", .arr [c6Veh])]),
        ("players", .obj [("10", .obj [("team", .num (some 1))])]),
        ("arenaUniqueID", .num (some 42)),
        ("personal", .obj [("avatar", .obj [("accountDBID", .num (some 10))])]),
        ("common", .obj [("duration", .num (some 444)), ("winnerTeam", .num (some 1)),
          ("arenaTag", .str "05_prokhorovka")])]

/-- Witness for C6: a concrete victory result with an authoritative vehicle
record overwriting a larger local damage value, and a sentinel map name that
gets backfilled. -/
theorem C6_witness :
    ∃ mb, CoreService.handleBattleResult 5 c6State c6Result =
        .ok (CoreService.battleResultOut c6State
              (jsToString (getFieldD c6Result "arenaUniqueID")) mb (.num (some 10)),
             containsKey c6State.stats.playersInfo (jsToString (JVal.num (some 10)))) ∧
      mb.duration = getFieldD (getFieldD c6Result "common") "duration" ∧
      mb.win = .num (some (if (1 : Int) = 1 then 1 else if (1 : Int) = 0 then 2 else 0)) ∧
      mb.mapName = (if "Unknown Map" = "Unknown Map"
            ∧ truthy (getFieldD (getFieldD c6Result "common") "arenaTag") = true
          then getFieldD (getFieldD c6Result "common") "arenaTag"
          else .str "Unknown Map") ∧
      mb.startTime = c6LocalBattle.startTime ∧
      (∃ mp, lookupA mb.players (jsToString (JVal.num (some 10))) = some mp ∧
        mp.damage = .num (some 1234) ∧ mp.kills = .num (some 3) ∧
        mp.points = .num (some (1234 + 3 * 5)) ∧
        mp.name = c6LocalPlayer.name ∧ mp.vehicle = c6LocalPlayer.vehicle) :=
  C6_battleResultResolution 5 c6State c6Result c6LocalBattle c6LocalPlayer
    10 1 1 1234 3 "Unknown Map" "77" c6Veh
    rfl rfl rfl rfl (fun h => JVal.noConfusion h) (fun h => JVal.noConfusion h)
    rfl (fun h => JVal.noConfusion h) rfl (by decide) rfl rfl (by decide)
    rfl rfl rfl rfl rfl

/-! ### C9: pull-on-change notification -/

/-- **C9 (amended)** — Conditional notification holds for the part_000
(history-core) evolution: its `statsUpdated` handler re-fetches, reconciles,
and emits only when the serialized `PlayersInfo`/`BattleStats` changed; in
particular an unchanged state never emits, and a key mismatch does nothing.
(The widget's coreService.js handler instead emits unconditionally — see the
counterexample.) -/
theorem C9_pullOnChangeConditionalNotify_amended (ppf now : Int) (key : String)
    (σ σ' : St) (notif resp : JVal) (e : Bool)
    (hrun : HistoryCore.onStatsUpdated ppf now key σ notif resp = .ok (σ', e)) :
    (σ' = σ → e = false) ∧
    (e = true → ¬(stringifyPlayersInfo σ'.playersInfo = stringifyPlayersInfo σ.playersInfo ∧
                  stringifyBattleStats σ'.battleStats = stringifyBattleStats σ.battleStats)) ∧
    ((truthy notif && jsStrictEq (getFieldD notif "key") (.str key)) = false →
      σ' = σ ∧ e = false) := by
  unfold HistoryCore.onStatsUpdated at hrun
  by_cases hkey : (truthy notif && jsStrictEq (getFieldD notif "key") (.str key)) = true
  · rw [if_pos hkey] at hrun
    by_cases hst : (truthy resp && jsStrictEq (getFieldD resp "status") (.num (some 200))) = true
    · rw [if_pos hst] at hrun
      cases hv2 : HistoryCore.handleServerData ppf now σ resp with
      | error u => rw [hv2] at hrun; simp at hrun
      | ok σ₂ =>
        rw [hv2] at hrun
        simp only [except_bind_ok, except_pure, Except.ok.injEq, Prod.mk.injEq] at hrun
        obtain ⟨hσ, he⟩ := hrun
        subst hσ
        refine ⟨?_, ?_, ?_⟩
        · intro hss
          subst hss
          simp at he
          exact he
        · intro het ⟨h1, h2⟩
          rw [← he] at het
          simp [h1, h2] at het
        · intro hk
          rw [hkey] at hk
          exact absurd hk (by simp)
    · rw [if_neg hst] at hrun
      simp only [except_pure, Except.ok.injEq, Prod.mk.injEq] at hrun
      obtain ⟨hσ, he⟩ := hrun
      subst hσ
      exact ⟨fun _ => he.symm, fun het => by rw [← he] at het; simp at het, fun _ => ⟨rfl, he.symm⟩⟩
  · rw [if_neg hkey] at hrun
    simp only [except_pure, Except.ok.injEq, Prod.mk.injEq] at hrun
    obtain ⟨hσ, he⟩ := hrun
    subst hσ
    exact ⟨fun _ => he.symm, fun het => by rw [← he] at het; simp at het, fun _ => ⟨rfl, he.symm⟩⟩

/-- **C9, counterexample** — the widget's own `statsUpdated` handler
(coreService.js lines 54-65) emits unconditionally: a matching notification
whose re-fetched body changes nothing (`success: false` makes
`handleServerData` a no-op) still ends with `statsUpdated` emitted, so the
claimed "no notification when nothing changed" is false for it. -/
theorem C9_counterexample_unconditionalEmit :
    CoreService.handleServerData 5 999 { battleStats := [], playersInfo := [] }
      (.obj [("success", .bool false)]) = .ok { battleStats := [], playersInfo := [] } ∧
    CoreService.onStatsUpdated 5 999 "k" { battleStats := [], playersInfo := [] }
      (.obj [("key", .str "k")])
      (.obj [("status", .num (some 200)), ("body", .obj [("success", .bool false)])]) =
      .ok ({ battleStats := [], playersInfo := [] }, true) := ⟨rfl, rfl⟩

/-- Witness for C9: a no-change pull in the history core emits nothing. -/
theorem C9_witness :
    HistoryCore.onStatsUpdated 5 999 "k" { battleStats := [], playersInfo := [] }
      (.obj [("key", .str "k")])
      (.obj [("status", .num (some 200)), ("success", .bool false)]) =
      .ok ({ battleStats := [], playersInfo := [] }, false) ∧
    ({ battleStats := [], playersInfo := [] } =
        ({ battleStats := [], playersInfo := [] } : St) →
      (false : Bool) = false) :=
  ⟨rfl,
   (C9_pullOnChangeConditionalNotify_amended 5 999 "k"
     { battleStats := [], playersInfo := [] } { battleStats := [], playersInfo := [] }
     (.obj [("key", .str "k")])
     (.obj [("status", .num (some 200)), ("success", .bool false)]) false rfl).1⟩

/-! ### C7: best/worst battle selection -/

/-- The stored `points` value is a JS number (the shape every code path
writes). -/
def isNumVal : JVal → Bool
  | .num _ => true
  | _ => false

/-- The integer a stored number contributes under `points || 0` (`NaN` and
`0` both contribute `0`). -/
def pointsOrZero : JVal → Int
  | .num (some n) => n
  | _ => 0

/-- Every player `points` field of the battle is a JS number. -/
def battleWF (b : Battle) : Bool :=
  b.players.all (fun q => isNumVal q.2.points)

/-- The claim's team-points formula: `POINTS_PER_TEAM_WIN` iff `win === 1`,
plus the sum of the players' points. -/
def battleScore (ptw : Int) (b : Battle) : Int :=
  (if jsStrictEq b.win (.num (some 1)) then ptw else 0)
    + (b.players.map (fun q => pointsOrZero q.2.points)).sum

namespace CoreService

theorem jsAdd_pointsOrZero (acc : Int) (v : JVal) (h : isNumVal v = true) :
    jsAdd (.num (some acc)) (jsOr v (.num (some 0))) = .num (some (acc + pointsOrZero v)) := by
  cases v with
  | num j =>
    cases j with
    | none => simp [jsOr, truthy, jsAdd, toPrimitive, toNumber, nadd, pointsOrZero]
    | some n =>
      by_cases hn : n = 0 <;>
        simp [jsOr, truthy, hn, jsAdd, toPrimitive, toNumber, nadd, pointsOrZero]
  | null => simp [isNumVal] at h
  | bool b => simp [isNumVal] at h
  | str s => simp [isNumVal] at h
  | obj fs => simp [isNumVal] at h
  | arr xs => simp [isNumVal] at h

theorem pointsFold_eval (l : List (String × Player)) :
    ∀ (acc : Int), l.all (fun q => isNumVal q.2.points) = true →
      l.foldl (fun a e => jsAdd a (jsOr e.2.points (.num (some 0)))) (.num (some acc)) =
        .num (some (acc + (l.map (fun q => pointsOrZero q.2.points)).sum)) := by
  induction l with
  | nil => intro acc _; simp
  | cons q rest ih =>
    intro acc hall
    simp only [List.all_cons, Bool.and_eq_true] at hall
    obtain ⟨hq, hrest⟩ := hall
    rw [List.foldl_cons, jsAdd_pointsOrZero acc _ hq, ih _ hrest]
    rw [List.map_cons, List.sum_cons, add_assoc]

theorem calculateBattlePoints_eval (ptw : Int) (b : Battle) (h : battleWF b = true) :
    calculateBattlePoints ptw b = .num (some (battleScore ptw b)) := by
  simp only [calculateBattlePoints, battleScore]
  by_cases hw : jsStrictEq b.win (.num (some 1)) = true
  · rw [if_pos hw, if_pos hw]
    rw [show jsAdd (JVal.num (some 0)) (.num (some ptw)) = .num (some (0 + ptw)) from rfl]
    rw [pointsFold_eval b.players (0 + ptw) h, zero_add]
  · rw [if_neg hw, if_neg hw]
    rw [pointsFold_eval b.players 0 h, zero_add]

theorem init_le_foldl_max : ∀ (l : List Int) (i : Int), i ≤ l.foldl max i := by
  intro l
  induction l with
  | nil => intro i; simp
  | cons v rest ih =>
    intro i
    rw [List.foldl_cons]
    exact le_trans (le_max_left i v) (ih (max i v))

theorem foldl_min_le_init : ∀ (l : List Int) (i : Int), l.foldl min i ≤ i := by
  intro l
  induction l with
  | nil => intro i; simp
  | cons v rest ih =>
    intro i
    rw [List.foldl_cons]
    exact le_trans (ih (min i v)) (min_le_left i v)

theorem foldFirstMax {α : Type} (f : α → Int) :
    ∀ (l : List α) (x0 : α),
      ∃ b bv,
        l.foldl (fun (a : α × Int) e => if a.2 < f e then (e, f e) else a) (x0, f x0) = (b, bv) ∧
        bv = (l.map f).foldl max (f x0) ∧
        (x0 :: l).find? (fun e => f e == bv) = some b := by
  intro l
  induction l with
  | nil =>
    intro x0
    exact ⟨x0, f x0, rfl, rfl, by simp [List.find?]⟩
  | cons e es ih =>
    intro x0
    rw [List.foldl_cons]
    by_cases hlt : f x0 < f e
    · rw [if_pos (by simpa using hlt)]
      obtain ⟨b, bv, hfold, hbv, hfind⟩ := ih e
      refine ⟨b, bv, hfold, ?_, ?_⟩
      · rw [List.map_cons, List.foldl_cons, max_eq_right (le_of_lt hlt)]
        exact hbv
      · have hle : f e ≤ bv := by rw [hbv]; exact init_le_foldl_max _ _
        have hx0 : (f x0 == bv) = false := by
          simp only [beq_eq_false_iff_ne, ne_eq]
          intro hh
          rw [hh] at hlt
          exact absurd (lt_of_lt_of_le hlt hle) (lt_irrefl bv)
        rw [List.find?_cons, hx0]
        exact hfind
    · rw [if_neg (by simpa using hlt)]
      obtain ⟨b, bv, hfold, hbv, hfind⟩ := ih x0
      push_neg at hlt
      refine ⟨b, bv, hfold, ?_, ?_⟩
      · rw [List.map_cons, List.foldl_cons, max_eq_left hlt]
        exact hbv
      · have hx0le : f x0 ≤ bv := by rw [hbv]; exact init_le_foldl_max _ _
        rw [List.find?_cons] at hfind ⊢
        by_cases hx0 : (f x0 == bv) = true
        · rw [hx0] at hfind ⊢
          exact hfind
        · rw [Bool.eq_false_iff.mpr hx0] at hfind
          rw [Bool.eq_false_iff.mpr hx0]
          have hene : (f e == bv) = false := by
            simp only [beq_eq_false_iff_ne, ne_eq]
            intro hh
            have h1 : f x0 = bv := le_antisymm hx0le (hh ▸ hlt)
            exact hx0 (by simp [h1])
          rw [List.find?_cons, hene]
          exact hfind

theorem foldFirstMin {α : Type} (f : α → Int) :
    ∀ (l : List α) (x0 : α),
      ∃ w wv,
        l.foldl (fun (a : α × Int) e => if f e < a.2 then (e, f e) else a) (x0, f x0) = (w, wv) ∧
        wv = (l.map f).foldl min (f x0) ∧
        (x0 :: l).find? (fun e => f e == wv) = some w := by
  intro l
  induction l with
  | nil =>
    intro x0
    exact ⟨x0, f x0, rfl, rfl, by simp [List.find?]⟩
  | cons e es ih =>
    intro x0
    rw [List.foldl_cons]
    by_cases hlt : f e < f x0
    · rw [if_pos (by simpa using hlt)]
      obtain ⟨w, wv, hfold, hwv, hfind⟩ := ih e
      refine ⟨w, wv, hfold, ?_, ?_⟩
      · rw [List.map_cons, List.foldl_cons, min_eq_right (le_of_lt hlt)]
        exact hwv
      · have hle : wv ≤ f e := by rw [hwv]; exact foldl_min_le_init _ _
        have hx0 : (f x0 == wv) = false := by
          simp only [beq_eq_false_iff_ne, ne_eq]
          intro hh
          rw [← hh] at hle
          exact absurd (lt_of_lt_of_le hlt hle) (lt_irrefl (f e))
        rw [List.find?_cons, hx0]
        exact hfind
    · rw [if_neg (by simpa using hlt)]
      obtain ⟨w, wv, hfold, hwv, hfind⟩ := ih x0
      push_neg at hlt
      refine ⟨w, wv, hfold, ?_, ?_⟩
      · rw [List.map_cons, List.foldl_cons, min_eq_left hlt]
        exact hwv
      · have hx0le : wv ≤ f x0 := by rw [hwv]; exact foldl_min_le_init _ _
        rw [List.find?_cons] at hfind ⊢
        by_cases hx0 : (f x0 == wv) = true
        · rw [hx0] at hfind ⊢
          exact hfind
        · rw [Bool.eq_false_iff.mpr hx0] at hfind
          rw [Bool.eq_false_iff.mpr hx0]
          have hene : (f e == wv) = false := by
            simp only [beq_eq_false_iff_ne, ne_eq]
            intro hh
            have h1 : f x0 = wv := le_antisymm (hh ▸ hlt) hx0le
            exact hx0 (by simp [h1])
          rw [List.find?_cons, hene]
          exact hfind

end CoreService

namespace CoreService

theorem jsLt_num (x y : Int) : jsLt (.num (some x)) (.num (some y)) = decide (x < y) := rfl

theorem jsGt_num (x y : Int) : jsGt (.num (some x)) (.num (some y)) = decide (y < x) := rfl

theorem selFold_eval (ptw : Int) :
    ∀ (l : List (String × Battle)) (w0 b0 : String × Battle) (wv0 bv0 : Int),
      l.all (fun e => battleWF e.2) = true →
      l.foldl
        (fun (acc : ((String × Battle) × JVal) × ((String × Battle) × JVal)) e =>
          let pts := calculateBattlePoints ptw e.2
          let w := if jsLt pts acc.1.2 then (e, pts) else acc.1
          let b := if jsGt pts acc.2.2 then (e, pts) else acc.2
          (w, b)) ((w0, JVal.num (some wv0)), (b0, JVal.num (some bv0))) =
      (((l.foldl (fun (a : (String × Battle) × Int) e =>
            if battleScore ptw e.2 < a.2 then (e, battleScore ptw e.2) else a) (w0, wv0)).1,
        JVal.num (some ((l.foldl (fun (a : (String × Battle) × Int) e =>
            if battleScore ptw e.2 < a.2 then (e, battleScore ptw e.2) else a) (w0, wv0)).2))),
       ((l.foldl (fun (a : (String × Battle) × Int) e =>
            if a.2 < battleScore ptw e.2 then (e, battleScore ptw e.2) else a) (b0, bv0)).1,
        JVal.num (some ((l.foldl (fun (a : (String × Battle) × Int) e =>
            if a.2 < battleScore ptw e.2 then (e, battleScore ptw e.2) else a) (b0, bv0)).2)))) := by
  intro l
  induction l with
  | nil => intro w0 b0 wv0 bv0 _; rfl
  | cons e es ih =>
    intro w0 b0 wv0 bv0 hall
    simp only [List.all_cons, Bool.and_eq_true] at hall
    obtain ⟨he, hes⟩ := hall
    have hpts := calculateBattlePoints_eval ptw e.2 he
    simp only [List.foldl_cons, hpts, jsLt_num, jsGt_num]
    by_cases hw : battleScore ptw e.2 < wv0 <;> by_cases hb : bv0 < battleScore ptw e.2
    · rw [if_pos (by simpa using hw), if_pos (by simpa using hb),
        if_pos hw, if_pos hb]
      exact ih e e _ _ hes
    · rw [if_pos (by simpa using hw), if_neg (by simpa using hb),
        if_pos hw, if_neg hb]
      exact ih e b0 _ _ hes
    · rw [if_neg (by simpa using hw), if_pos (by simpa using hb),
        if_neg hw, if_pos hb]
      exact ih w0 e _ _ hes
    · rw [if_neg (by simpa using hw), if_neg (by simpa using hb),
        if_neg hw, if_neg hb]
      exact ih w0 b0 _ _ hes

end CoreService

/-- **C7.** Best/worst selection (coreService.js lines 343-425), for store
states whose player `points` fields are JS numbers (the shape every code
path writes).  (a) Each battle's total points are `POINTS_PER_TEAM_WIN`
(only when `win === 1`) plus the sum of its players' points;
(b) `(null, null)` is returned exactly when no battle has `win !== -1`;
(c) otherwise the returned best (resp. worst) battle carries the maximum
(resp. minimum) score over exactly the decided battles, and is the FIRST
battle attaining that score in `BattleStats` insertion order (tie-break in
both directions). -/
theorem C7_bestWorstSelection (ptw : Int) (σ : St)
    (hWF : σ.battleStats.all (fun e => battleWF e.2) = true) :
    (∀ e ∈ σ.battleStats,
        CoreService.calculateBattlePoints ptw e.2 = .num (some (battleScore ptw e.2))) ∧
    (CoreService.findBestAndWorstBattle ptw σ = (none, none) ↔
        σ.battleStats.filter (fun e => !(jsStrictEq e.2.win (.num (some (-1))))) = []) ∧
    (∀ c0 cs,
        σ.battleStats.filter (fun e => !(jsStrictEq e.2.win (.num (some (-1))))) = c0 :: cs →
        ∃ bb bp wb wp,
          CoreService.findBestAndWorstBattle ptw σ =
            (some (bb, .num (some bp)), some (wb, .num (some wp))) ∧
          bp = (cs.map (fun e => battleScore ptw e.2)).foldl max (battleScore ptw c0.2) ∧
          (c0 :: cs).find? (fun e => battleScore ptw e.2 == bp) = some bb ∧
          wp = (cs.map (fun e => battleScore ptw e.2)).foldl min (battleScore ptw c0.2) ∧
          (c0 :: cs).find? (fun e => battleScore ptw e.2 == wp) = some wb) := by
  refine ⟨?_, ?_, ?_⟩
  · intro e hmem
    exact CoreService.calculateBattlePoints_eval ptw e.2 (List.all_eq_true.mp hWF e hmem)
  · constructor
    · intro hres
      by_cases hbs : σ.battleStats.isEmpty = true
      · rw [List.isEmpty_iff.mp hbs]
        rfl
      · cases hflt : σ.battleStats.filter
            (fun e => !(jsStrictEq e.2.win (.num (some (-1))))) with
        | nil => rfl
        | cons c0 cs =>
          exfalso
          simp only [CoreService.findBestAndWorstBattle,
            Bool.not_eq_true (σ.battleStats.isEmpty) ▸ hbs, hflt] at hres
          simp [eq_false_of_ne_true hbs, hflt] at hres
    · intro hflt
      simp only [CoreService.findBestAndWorstBattle]
      by_cases hbs : σ.battleStats.isEmpty = true
      · simp [hbs]
      · simp [eq_false_of_ne_true hbs, hflt]
  · intro c0 cs hflt
    have hsub : ∀ x ∈ c0 :: cs, x ∈ σ.battleStats := by
      intro x hx
      have hx' : x ∈ σ.battleStats.filter
          (fun e => !(jsStrictEq e.2.win (.num (some (-1))))) := hflt ▸ hx
      exact List.mem_of_mem_filter hx'
    have hc0 : battleWF c0.2 = true :=
      List.all_eq_true.mp hWF c0 (hsub c0 (List.mem_cons_self c0 cs))
    have hcs : cs.all (fun e => battleWF e.2) = true := by
      rw [List.all_eq_true]
      intro x hx
      exact List.all_eq_true.mp hWF x (hsub x (List.mem_cons_of_mem c0 hx))
    have hbs : σ.battleStats.isEmpty = false := by
      cases hb : σ.battleStats with
      | nil =>
        rw [hb] at hflt
        simp at hflt
      | cons a as => rfl
    have hp0 := CoreService.calculateBattlePoints_eval ptw c0.2 hc0
    obtain ⟨bb, bp, hfoldB, hbp, hfindB⟩ :=
      CoreService.foldFirstMax (fun e => battleScore ptw e.2) cs c0
    obtain ⟨wb, wp, hfoldW, hwp, hfindW⟩ :=
      CoreService.foldFirstMin (fun e => battleScore ptw e.2) cs c0
    refine ⟨bb, bp, wb, wp, ?_, hbp, hfindB, hwp, hfindW⟩
    simp only [CoreService.findBestAndWorstBattle, hbs, Bool.false_eq_true,
      if_false, hflt, hp0, List.foldl_cons, ite_self]
    rw [CoreService.selFold_eval ptw cs c0 c0 (battleScore ptw c0.2)
      (battleScore ptw c0.2) hcs]
    rw [hfoldW, hfoldB]

/-- The spec's own §8 example: battle `a` won (`win=1`) with 50 player
points, battle `b` lost (`win=0`) with 10, battle `c` undecided
(`win=-1`) with 999. -/
def c7PA : Player :=
  { name := .str "pa", damage := .num (some 500), kills := .num (some 2), points := .num (some 50), vehicle := .str "T-34" }

def c7PB : Player :=
  { name := .str "pa", damage := .num (some 100), kills := .num (some 0), points := .num (some 10), vehicle := .str "T-34" }

def c7PC : Player :=
  { name := .str "pa", damage := .num (some 9999), kills := .num (some 9), points := .num (some 999), vehicle := .str "T-34" }

def c7A : Battle :=
  { startTime := .num (some 1), duration := .num (some 300), win := .num (some 1), mapName := .str "Karelia", players := [("100", c7PA)] }

def c7B : Battle :=
  { startTime := .num (some 2), duration := .num (some 200), win := .num (some 0), mapName := .str "Prokhorovka", players := [("100", c7PB)] }

def c7C : Battle :=
  { startTime := .num (some 3), duration := .num (some 0), win := .num (some (-1)), mapName := .str "Ensk", players := [("100", c7PC)] }

def c7State : St :=
  { battleStats := [("a", c7A), ("b", c7B), ("c", c7C)], playersInfo := [] }

/-- **C7, witness**: on the spec's §8 example with `POINTS_PER_TEAM_WIN = 25`,
the claim theorem applies (scores: a ↦ 75, b ↦ 10, c excluded), and the
selection it characterises is concretely `best = a` at 75, `worst = b`
at 10. -/
theorem C7_witness :
    (c7State.battleStats.all (fun e => battleWF e.2) = true) ∧
    ((∀ e ∈ c7State.battleStats,
        CoreService.calculateBattlePoints 25 e.2 = .num (some (battleScore 25 e.2))) ∧
     (CoreService.findBestAndWorstBattle 25 c7State = (none, none) ↔
        c7State.battleStats.filter (fun e => !(jsStrictEq e.2.win (.num (some (-1))))) = []) ∧
     (∀ c0 cs,
        c7State.battleStats.filter (fun e => !(jsStrictEq e.2.win (.num (some (-1))))) = c0 :: cs →
        ∃ bb bp wb wp,
          CoreService.findBestAndWorstBattle 25 c7State =
            (some (bb, .num (some bp)), some (wb, .num (some wp))) ∧
          bp = (cs.map (fun e => battleScore 25 e.2)).foldl max (battleScore 25 c0.2) ∧
          (c0 :: cs).find? (fun e => battleScore 25 e.2 == bp) = some bb ∧
          wp = (cs.map (fun e => battleScore 25 e.2)).foldl min (battleScore 25 c0.2) ∧
          (c0 :: cs).find? (fun e => battleScore 25 e.2 == wp) = some wb)) ∧
    CoreService.findBestAndWorstBattle 25 c7State =
      (some (("a", c7A), .num (some 75)), some (("b", c7B), .num (some 10))) :=
  ⟨by rfl, C7_bestWorstSelection 25 c7State (by rfl), by rfl⟩

/-! ### C3: idempotent reconciliation -/

namespace JS

theorem truthy_jsOr (a b : JVal) : truthy (jsOr a b) = (truthy a || truthy b) := by
  unfold jsOr
  by_cases h : truthy a <;> simp [h]

theorem jsOr_self_right (a c : JVal) : jsOr (jsOr a c) c = jsOr a c := by
  unfold jsOr
  by_cases ha : truthy a
  · simp [ha]
  · simp [ha]

theorem jsOr_absorb_chain (a b b2 : JVal) (hb : truthy b = true) :
    jsOr a (jsOr (jsOr a b) b2) = jsOr a b := by
  unfold jsOr
  by_cases ha : truthy a
  · simp [ha]
  · simp [ha, hb]

theorem jsNullish_idem (a b : JVal) (hb : isNull b = false) :
    jsNullish (jsNullish a b) b = jsNullish a b := by
  unfold jsNullish
  by_cases ha : isNull a = true
  · simp [ha, hb]
  · simp [ha]

theorem nmax_right_idem (a b : Option Int) : nmax (nmax a b) b = nmax a b := by
  cases a with
  | none => rfl
  | some x =>
    cases b with
    | none => rfl
    | some y => simp [nmax, max_assoc]

theorem oset_append {α : Type} (l : List (String × α)) (k : String) (v : α)
    (h : containsKey l k = false) : oset l k v = l ++ [(k, v)] := by
  induction l with
  | nil => rfl
  | cons e rest ih =>
    obtain ⟨k0, v0⟩ := e
    by_cases hk : k0 = k
    · subst hk
      simp [containsKey, lookupA] at h
    · simp only [containsKey, lookupA, if_neg hk] at h
      simp [oset, hk, ih h]

theorem lookupA_append {α : Type} (l m : List (String × α)) (k : String) :
    lookupA (l ++ m) k = match lookupA l k with
      | some v => some v
      | none => lookupA m k := by
  induction l with
  | nil => simp [lookupA]
  | cons e rest ih =>
    obtain ⟨k0, v0⟩ := e
    by_cases hk : k0 = k <;> simp [lookupA, hk, ih]

theorem containsKey_append {α : Type} (l m : List (String × α)) (k : String) :
    containsKey (l ++ m) k = (containsKey l k || containsKey m k) := by
  simp only [containsKey, lookupA_append]
  cases h : lookupA l k <;> simp

theorem lookupA_of_mem_nodup {α : Type} (l : List (String × α)) (e : String × α)
    (hnd : keysNodup l = true) (h : e ∈ l) : lookupA l e.1 = some e.2 := by
  induction l with
  | nil => simp at h
  | cons x rest ih =>
    obtain ⟨k0, v0⟩ := x
    simp only [keysNodup, Bool.and_eq_true, Bool.not_eq_true'] at hnd
    rcases List.mem_cons.mp h with h' | h'
    · subst h'
      simp [lookupA]
    · by_cases hk : k0 = e.1
      · exfalso
        have hc := containsKey_of_mem rest e h'
        rw [← hk] at hc
        rw [hc] at hnd
        exact absurd hnd.1 (by simp)
      · simp only [lookupA, if_neg hk]
        exact ih hnd.2 h'

end JS

namespace CoreService

theorem backfill_cons (e : String × Battle) (bs nm : List (String × Battle)) :
    backfill (e :: bs) nm =
      backfill bs (if containsKey nm e.1 then nm else oset nm e.1 e.2) := by
  simp [backfill, List.foldl_cons]

theorem backfill_append (l₁ l₂ nm : List (String × Battle)) :
    backfill (l₁ ++ l₂) nm = backfill l₂ (backfill l₁ nm) := by
  simp [backfill, List.foldl_append]

theorem backfill_skip_all (l : List (String × Battle)) :
    ∀ nm, (∀ e ∈ l, containsKey nm e.1 = true) → backfill l nm = nm := by
  induction l with
  | nil => intro nm _; rfl
  | cons e rest ih =>
    intro nm h
    rw [backfill_cons, if_pos (h e (by simp))]
    exact ih nm (fun x hx => h x (by simp [hx]))

theorem backfill_append_fresh (l : List (String × Battle)) :
    ∀ nm, (∀ e ∈ l, containsKey nm e.1 = false) → keysNodup l = true →
      backfill l nm = nm ++ l := by
  induction l with
  | nil => intro nm _ _; simp [backfill]
  | cons e rest ih =>
    intro nm h hnd
    obtain ⟨k0, v0⟩ := e
    simp only [keysNodup, Bool.and_eq_true, Bool.not_eq_true'] at hnd
    have h0 : containsKey nm k0 = false := h (k0, v0) (by simp)
    rw [backfill_cons]
    simp only [h0, Bool.false_eq_true, if_false]
    rw [oset_append nm k0 v0 h0]
    rw [ih (nm ++ [(k0, v0)]) ?hfresh hnd.2]
    · simp
    case hfresh =>
      intro x hx
      rw [containsKey_append]
      have hx0 : containsKey nm x.1 = false := h x (by simp [hx])
      have hxk : containsKey [(k0, v0)] x.1 = false := by
        have hne : k0 ≠ x.1 := by
          intro hh
          have hc := containsKey_of_mem rest x hx
          rw [← hh] at hc
          rw [hc] at hnd
          exact absurd hnd.1 (by simp)
        simp [containsKey, lookupA, hne]
      simp [hx0, hxk]

theorem backfill_extend (bs : List (String × Battle)) :
    ∀ nm, ∃ rest, backfill bs nm = nm ++ rest ∧
      (∀ k, containsKey rest k = true → containsKey nm k = false) ∧
      keysNodup rest = true := by
  induction bs with
  | nil =>
    intro nm
    refine ⟨[], by rw [List.append_nil]; rfl, ?_, rfl⟩
    intro k hk
    simp [containsKey, lookupA] at hk
  | cons e rest ih =>
    intro nm
    obtain ⟨k0, v0⟩ := e
    by_cases hc : containsKey nm k0 = true
    · obtain ⟨r, hr, hdisj, hnd⟩ := ih nm
      exact ⟨r, by rw [backfill_cons]; simpa [hc] using hr, hdisj, hnd⟩
    · have hc' : containsKey nm k0 = false := by
        cases h' : containsKey nm k0
        · rfl
        · exact absurd h' hc
      obtain ⟨r, hr, hdisj, hnd⟩ := ih (nm ++ [(k0, v0)])
      refine ⟨(k0, v0) :: r, ?_, ?_, ?_⟩
      · rw [backfill_cons]
        simp only [hc', Bool.false_eq_true, if_false]
        rw [oset_append nm k0 v0 hc', hr]
        simp
      · intro k hk
        simp only [containsKey, lookupA] at hk
        by_cases hk0 : k0 = k
        · rw [← hk0]; exact hc'
        · rw [if_neg hk0] at hk
          have := hdisj k hk
          rw [containsKey_append] at this
          exact (Bool.or_eq_false_iff.mp this).1
      · simp only [keysNodup, Bool.and_eq_true, Bool.not_eq_true']
        refine ⟨?_, hnd⟩
        cases hcr : containsKey r k0
        · rfl
        · have := hdisj k0 hcr
          rw [containsKey_append] at this
          have h2 := (Bool.or_eq_false_iff.mp this).2
          simp [containsKey, lookupA] at h2
      
theorem backfill_idem (bs nm : List (String × Battle)) :
    backfill (backfill bs nm) nm = backfill bs nm := by
  obtain ⟨rest, heq, hdisj, hnd⟩ := backfill_extend bs nm
  rw [heq, backfill_append]
  rw [backfill_skip_all nm nm (fun e he => containsKey_of_mem nm e he)]
  rw [backfill_append_fresh rest nm ?hfr hnd]
  case hfr =>
    intro e he
    exact hdisj e.1 (containsKey_of_mem rest e he)

end CoreService


namespace CoreService

/-- Well-formed stored player: the numeric stat fields are JS numbers (the
shape every code path writes). -/
def playerWF (p : Player) : Bool :=
  isNumVal p.damage && isNumVal p.kills && isNumVal p.points

/-- Well-formed store: every stored player's stat fields are JS numbers. -/
def stateWF (σ : St) : Bool :=
  σ.battleStats.all (fun e => e.2.players.all (fun q => playerWF q.2))

/-- Not the `NaN` literal (JSON payloads cannot carry `NaN`). -/
def notNaN (v : JVal) : Bool :=
  match v with
  | .num none => false
  | _ => true

/-- Well-formed player DTO: its raw stat fields are not `NaN`. -/
def playerPayloadWF (pv : JVal) : Bool :=
  notNaN (getFieldD (unwrapId pv) "kills")
    && notNaN (getFieldD (unwrapId pv) "damage")
    && notNaN (getFieldD (unwrapId pv) "points")

/-- Well-formed battle DTO: distinct player keys (true of every real JS
object) and well-formed player DTOs. -/
def battlePayloadWF (bv : JVal) : Bool :=
  keysNodup (battlePlayersEntries bv)
    && (battlePlayersEntries bv).all (fun q => playerPayloadWF q.2)

/-- Well-formed snapshot: distinct arena keys and well-formed battle DTOs. -/
def payloadWF (data : JVal) : Bool :=
  keysNodup (entries (getFieldD data "BattleStats"))
    && (entries (getFieldD data "BattleStats")).all (fun e => battlePayloadWF e.2)

theorem foldlM_buildStep_congr {β : Type} (f g : String → JVal → Except Unit β)
    (l : List (String × JVal)) (h : ∀ e ∈ l, f e.1 e.2 = g e.1 e.2) :
    ∀ acc, l.foldlM (buildStep f) acc = l.foldlM (buildStep g) acc := by
  induction l with
  | nil => intro acc; rfl
  | cons e rest ih =>
    intro acc
    rw [List.foldlM_cons, List.foldlM_cons]
    have he := h e (by simp)
    simp only [buildStep, he]
    cases hg : g e.1 e.2 with
    | error u => simp
    | ok v =>
      simp only [except_bind_ok]
      exact ih (fun x hx => h x (by simp [hx])) _

theorem jsMax_num (x y : Option Int) : jsMax (.num x) (.num y) = .num (nmax x y) := rfl

theorem nmax_some (a b : Int) : nmax (some a) (some b) = some (max a b) := rfl

/-- `v || 0` on a stored numeric field is a non-`NaN` number. -/
theorem jsOr_zero_of_isNum (v : JVal) (h : isNumVal v = true) :
    ∃ m, jsOr v (.num (some 0)) = .num (some m) := by
  cases v with
  | num j =>
    cases j with
    | none => exact ⟨0, rfl⟩
    | some n => exact ⟨n, jsOr_num_zero n⟩
  | null => simp [isNumVal] at h
  | bool b => simp [isNumVal] at h
  | str s => simp [isNumVal] at h
  | obj fs => simp [isNumVal] at h
  | arr xs => simp [isNumVal] at h

/-- Re-merging a server player DTO into its own first merge result is a
no-op: `processPlayer` run against an existing-players map that already
holds the first result returns that result unchanged (for any second
`PlayersInfo`). -/
theorem processPlayer_idem (ppf : Int) (exP exP2 : List (String × Player))
    (pinfo pinfo2 : List (String × JVal)) (pid : String) (pv : JVal) (p1 : Player)
    (hok : processPlayer ppf exP pinfo pid pv = .ok p1)
    (hWFex : ∀ q ∈ exP, playerWF q.2 = true)
    (hWFpv : playerPayloadWF pv = true)
    (hlk : lookupA exP2 pid = some p1) :
    processPlayer ppf exP2 pinfo2 pid pv = .ok p1 := by
  simp only [playerPayloadWF, Bool.and_eq_true] at hWFpv
  obtain ⟨⟨hker, hder⟩, hper⟩ := hWFpv
  by_cases hnull : unwrapId pv = .null
  · rw [processPlayer, hnull] at hok
    simp [jget, getField] at hok
  · simp only [processPlayer] at hok ⊢
    rw [jget_ok_of_ne_null _ _ hnull, jget_ok_of_ne_null _ _ hnull,
        jget_ok_of_ne_null _ _ hnull] at hok ⊢
    simp only [except_bind_ok] at hok ⊢
    obtain ⟨kv, hkv⟩ : ∃ kv,
        (match getFieldD (unwrapId pv) "kills" with
          | JVal.num j => j | _ => some 0) = some kv := by
      cases hk : getFieldD (unwrapId pv) "kills" with
      | num j =>
        cases j with
        | none => rw [hk] at hker; simp [notNaN] at hker
        | some n => exact ⟨n, rfl⟩
      | null => exact ⟨0, rfl⟩
      | bool b => exact ⟨0, rfl⟩
      | str s => exact ⟨0, rfl⟩
      | obj fs => exact ⟨0, rfl⟩
      | arr xs => exact ⟨0, rfl⟩
    obtain ⟨dv, hdv⟩ : ∃ dv,
        (match getFieldD (unwrapId pv) "damage" with
          | JVal.num j => j | _ => some 0) = some dv := by
      cases hk : getFieldD (unwrapId pv) "damage" with
      | num j =>
        cases j with
        | none => rw [hk] at hder; simp [notNaN] at hder
        | some n => exact ⟨n, rfl⟩
      | null => exact ⟨0, rfl⟩
      | bool b => exact ⟨0, rfl⟩
      | str s => exact ⟨0, rfl⟩
      | obj fs => exact ⟨0, rfl⟩
      | arr xs => exact ⟨0, rfl⟩
    rw [hkv, hdv] at hok ⊢
    obtain ⟨pts, hpts⟩ : ∃ pts,
        (match getFieldD (unwrapId pv) "points" with
          | JVal.num j => j
          | _ => nadd (some dv) (nmul (some kv) (some ppf))) = some pts := by
      cases hk : getFieldD (unwrapId pv) "points" with
      | num j =>
        cases j with
        | none => rw [hk] at hper; simp [notNaN] at hper
        | some n => exact ⟨n, rfl⟩
      | null => exact ⟨dv + kv * ppf, rfl⟩
      | bool b => exact ⟨dv + kv * ppf, rfl⟩
      | str s => exact ⟨dv + kv * ppf, rfl⟩
      | obj fs => exact ⟨dv + kv * ppf, rfl⟩
      | arr xs => exact ⟨dv + kv * ppf, rfl⟩
    rw [hpts] at hok ⊢
    have hUP : truthy (JVal.str "Unknown Player") = true := by decide
    have hUV : truthy (JVal.str "Unknown Vehicle") = true := by decide
    cases hexp : lookupA exP pid with
    | some ep =>
      rw [hexp] at hok
      simp only [except_pure, Except.ok.injEq] at hok
      have hepWF : playerWF ep = true :=
        hWFex (pid, ep) (lookupA_mem exP pid ep hexp)
      simp only [playerWF, Bool.and_eq_true] at hepWF
      obtain ⟨⟨hepd, hepk⟩, hepp⟩ := hepWF
      obtain ⟨md, hmd⟩ := jsOr_zero_of_isNum ep.damage hepd
      obtain ⟨mk', hmk⟩ := jsOr_zero_of_isNum ep.kills hepk
      obtain ⟨mp, hmp⟩ := jsOr_zero_of_isNum ep.points hepp
      have hnt : truthy (jsOr ep.name (jsOr ((lookupA pinfo pid).getD .null)
          (.str "Unknown Player"))) = true := by
        simp [truthy_jsOr, hUP]
      have hvt : truthy (jsOr ep.vehicle (.str "Unknown Vehicle")) = true := by
        simp [truthy_jsOr, hUV]
      subst hok
      simp only [hlk, except_pure, Except.ok.injEq, Player.mk.injEq]
      rw [jsOr_num_zero dv, jsOr_num_zero kv, jsOr_num_zero pts,
          hmd, hmk, hmp, jsMax_num, jsMax_num, jsMax_num,
          nmax_some, nmax_some, nmax_some,
          jsOr_num_zero (max dv md), jsOr_num_zero (max kv mk'),
          jsOr_num_zero (max pts mp), jsMax_num, jsMax_num, jsMax_num,
          nmax_some, nmax_some, nmax_some]
      rw [← max_assoc dv dv md, max_self, ← max_assoc kv kv mk', max_self,
          ← max_assoc pts pts mp, max_self]
      refine ⟨jsOr_absorb_chain _ _ _ hnt, rfl, rfl, rfl,
        jsOr_absorb_chain _ _ _ hvt⟩
    | none =>
      rw [hexp] at hok
      simp only [except_pure, Except.ok.injEq] at hok
      have hnt : truthy (jsOr ((lookupA pinfo pid).getD .null)
          (.str "Unknown Player")) = true := by
        simp [truthy_jsOr, hUP]
      subst hok
      simp only [hlk, except_pure, Except.ok.injEq, Player.mk.injEq]
      rw [jsOr_num_zero dv, jsOr_num_zero kv, jsOr_num_zero pts,
          jsMax_num, jsMax_num, jsMax_num,
          nmax_some, nmax_some, nmax_some, max_self, max_self, max_self]
      refine ⟨jsOr_absorb_chain _ _ _ hnt, rfl, rfl, rfl,
        jsOr_absorb_chain _ _ _ hUV⟩

end CoreService

namespace JS

theorem jsOr_pos (a b : JVal) (h : truthy a = true) : jsOr a b = a := by
  unfold jsOr; rw [h]; rfl

theorem jsOr_neg (a b : JVal) (h : truthy a = false) : jsOr a b = b := by
  unfold jsOr; rw [h]; rfl

theorem jsNullish_num (j : Option Int) (z : JVal) : jsNullish (.num j) z = .num j := rfl

theorem toNumber_num (j : Option Int) : toNumber (.num j) = j := rfl

theorem jsStrictEq_str_right (v : JVal) (s : String)
    (h : jsStrictEq v (.str s) = true) : v = .str s := by
  cases v with
  | str a => simp [jsStrictEq] at h; rw [h]
  | null => simp [jsStrictEq] at h
  | bool b => simp [jsStrictEq] at h
  | num j => cases j <;> simp [jsStrictEq] at h
  | obj fs => simp [jsStrictEq] at h
  | arr xs => simp [jsStrictEq] at h

end JS

namespace CoreService

theorem duration_idem (exDur sDur : JVal) :
    jsMax (jsNullish (jsMax (jsNullish exDur (.num (some 0)))
        (jsNullish sDur (.num (some 0)))) (.num (some 0)))
      (jsNullish sDur (.num (some 0))) =
    jsMax (jsNullish exDur (.num (some 0))) (jsNullish sDur (.num (some 0))) := by
  simp only [jsMax, jsNullish_num, toNumber_num, nmax_right_idem]

theorem win_idem (exWin : JVal) (sw : Option Int) :
    (if sw ≠ some (-1) then JVal.num sw
     else jsNullish (if sw ≠ some (-1) then JVal.num sw
                     else jsNullish exWin (.num (some (-1)))) (.num (some (-1)))) =
    (if sw ≠ some (-1) then JVal.num sw else jsNullish exWin (.num (some (-1)))) := by
  by_cases h : sw = some (-1)
  · simp only [h, ne_eq, not_true_eq_false, if_false]
    exact jsNullish_idem exWin _ rfl
  · simp [h]

theorem mapName_step_idem (m1 sMap : JVal)
    (hm : m1 = jsOr sMap (.str "Unknown Map") ∨
          (truthy m1 = true ∧ jsStrictEq m1 (.str "Unknown Map") = false)) :
    (if truthy m1 && !(jsStrictEq m1 (.str "Unknown Map")) then m1
     else jsOr sMap (.str "Unknown Map")) = m1 := by
  rcases hm with hm | ⟨h1, h2⟩
  · subst hm
    exact ite_self _
  · rw [if_pos (by simp [h1, h2])]

theorem startTime_idem (sStart exStart : JVal) (now : Int) :
    jsOr sStart (jsOr (jsOr sStart (jsOr exStart (.num (some now))))
      (.num (some now))) =
    jsOr sStart (jsOr exStart (.num (some now))) := by
  cases hs : truthy sStart with
  | true => rw [jsOr_pos _ _ hs, jsOr_pos _ _ hs]
  | false =>
    rw [jsOr_neg _ _ hs, jsOr_neg _ _ hs]
    exact jsOr_self_right exStart (.num (some now))

/-- Re-merging a server battle DTO into its own first merge result is a
no-op: `processBattle` run against a state whose battle map already holds
the first result under the same arena id returns that result unchanged. -/
theorem processBattle_idem (ppf now : Int) (σ σ2 : St) (aid : String) (bv : JVal)
    (b1 : Battle)
    (hok : processBattle ppf now σ aid bv = .ok b1)
    (hWFst : stateWF σ = true)
    (hWFbv : battlePayloadWF bv = true)
    (hlk : lookupA σ2.battleStats aid = some b1) :
    processBattle ppf now σ2 aid bv = .ok b1 := by
  simp only [battlePayloadWF, Bool.and_eq_true, List.all_eq_true] at hWFbv
  obtain ⟨hnd, hpw⟩ := hWFbv
  have hWFexP : ∀ q ∈ (match lookupA σ.battleStats aid with
      | some b => b.players | none => ([] : List (String × Player))),
      playerWF q.2 = true := by
    cases hb : lookupA σ.battleStats aid with
    | none => simp
    | some b =>
      simp only
      intro q hq
      have hbmem : (aid, b) ∈ σ.battleStats := lookupA_mem _ _ _ hb
      simp only [stateWF, List.all_eq_true] at hWFst
      have hball := hWFst (aid, b) hbmem
      simp only [List.all_eq_true] at hball
      exact hball q hq
  simp only [processBattle] at hok ⊢
  cases hfold : (battlePlayersEntries bv).foldlM
      (buildStep (processPlayer ppf
        (match lookupA σ.battleStats aid with | some b => b.players | none => [])
        σ.playersInfo)) [] with
  | error u => rw [hfold] at hok; simp at hok
  | ok players1 =>
    rw [hfold] at hok
    simp only [except_bind_ok] at hok
    by_cases hnull : unwrapId bv = .null
    · rw [hnull] at hok
      simp [jget, getField] at hok
    · rw [jget_ok_of_ne_null _ _ hnull] at hok
      simp only [except_bind_ok] at hok
      rw [jget_ok_of_ne_null _ _ hnull] at hok
      simp only [except_bind_ok] at hok
      rw [jget_ok_of_ne_null _ _ hnull] at hok
      simp only [except_bind_ok] at hok
      rw [jget_ok_of_ne_null _ _ hnull] at hok
      simp only [except_bind_ok, except_pure, Except.ok.injEq] at hok
      subst hok
      simp only [hlk]
      have hfold2 : (battlePlayersEntries bv).foldlM
          (buildStep (processPlayer ppf players1 σ2.playersInfo)) [] =
          .ok players1 := by
        rw [foldlM_buildStep_congr (processPlayer ppf players1 σ2.playersInfo)
          (processPlayer ppf
            (match lookupA σ.battleStats aid with | some b => b.players | none => [])
            σ.playersInfo) (battlePlayersEntries bv) ?hcong []]
        · exact hfold
        case hcong =>
          intro e he
          obtain ⟨pe, hpe, hlpe⟩ := foldlM_buildStep_mem _ _ _ _ hfold hnd e.1 e.2
            (lookupA_of_mem_nodup _ e hnd he)
          rw [hpe, processPlayer_idem ppf _ players1 σ.playersInfo σ2.playersInfo
            e.1 e.2 pe hpe hWFexP (hpw e he) hlpe]
      rw [hfold2]
      simp only [except_bind_ok]
      rw [jget_ok_of_ne_null _ _ hnull]
      simp only [except_bind_ok]
      rw [jget_ok_of_ne_null _ _ hnull]
      simp only [except_bind_ok]
      rw [jget_ok_of_ne_null _ _ hnull]
      simp only [except_bind_ok]
      rw [jget_ok_of_ne_null _ _ hnull]
      simp only [except_bind_ok, except_pure, Except.ok.injEq, Battle.mk.injEq]
      refine ⟨startTime_idem _ _ _, duration_idem _ _, win_idem _ _, ?_, trivial⟩
      by_cases hc : (truthy (match lookupA σ.battleStats aid with
            | some b => b.mapName | none => JVal.null)
          && !(jsStrictEq (match lookupA σ.battleStats aid with
            | some b => b.mapName | none => JVal.null) (.str "Unknown Map"))) = true
      · have hc' := hc
        simp only [Bool.and_eq_true, Bool.not_eq_true'] at hc'
        refine mapName_step_idem _ _ (Or.inr ⟨?_, ?_⟩)
        · rw [if_pos hc]
          exact hc'.1
        · rw [if_pos hc]
          exact hc'.2
      · exact mapName_step_idem _ _ (Or.inl (by rw [if_neg hc]))

end CoreService

namespace CoreService

/-- Re-merging a snapshot's `BattleStats` into the battle map it itself
produced is a no-op. -/
theorem mergeBattleStats_idem (ppf now : Int) (σ σ1 : St) (bsv : JVal)
    (final : List (String × Battle))
    (hok : mergeBattleStats ppf now σ bsv = .ok final)
    (hWFst : stateWF σ = true)
    (hnd : keysNodup (entries bsv) = true)
    (hWFbs : ∀ e ∈ entries bsv, battlePayloadWF e.2 = true)
    (hσ1 : σ1.battleStats = final) :
    mergeBattleStats ppf now σ1 bsv = .ok final := by
  rw [mergeBattleStats_eq] at hok ⊢
  cases hfold : (entries bsv).foldlM (buildStep (processBattle ppf now σ)) [] with
  | error u => rw [hfold] at hok; simp at hok
  | ok nm =>
    rw [hfold] at hok
    simp only [except_bind_ok, except_pure, Except.ok.injEq] at hok
    have hfold2 : (entries bsv).foldlM (buildStep (processBattle ppf now σ1)) [] =
        .ok nm := by
      rw [foldlM_buildStep_congr (processBattle ppf now σ1) (processBattle ppf now σ)
        (entries bsv) ?hcong []]
      · exact hfold
      case hcong =>
        intro e he
        obtain ⟨b1, hb1, hlb1⟩ := foldlM_buildStep_mem _ _ _ _ hfold hnd e.1 e.2
          (lookupA_of_mem_nodup _ e hnd he)
        have hcontains : containsKey nm e.1 = true := by
          simp [containsKey, hlb1]
        have hlfinal : lookupA final e.1 = some b1 := by
          rw [← hok, backfill_containsKey σ.battleStats nm e.1 hcontains]
          exact hlb1
        rw [hb1, processBattle_idem ppf now σ σ1 e.1 e.2 b1 hb1 hWFst (hWFbs e he)
          (by rw [hσ1]; exact hlfinal)]
    rw [hfold2]
    simp only [except_bind_ok, except_pure, Except.ok.injEq]
    rw [hσ1, ← hok]
    exact backfill_idem σ.battleStats nm

end CoreService

/-- **C3.** Idempotent reconciliation (coreService.js lines 87-175), for
well-formed inputs: a snapshot with distinct object keys whose player stat
fields are not the (JSON-unrepresentable) `NaN` literal, against a store
whose player stat fields are JS numbers — the shape every code path writes.
Reconciling the same snapshot a second time (at the same `Date.now()`)
returns the once-reconciled state unchanged: same `BattleStats`, same
`PlayersInfo`. -/
theorem C3_idempotentReconcile (ppf now : Int) (σ σ1 : St) (data : JVal)
    (hok : CoreService.handleServerData ppf now σ data = .ok σ1)
    (hst : CoreService.stateWF σ = true)
    (hpay : CoreService.payloadWF data = true) :
    CoreService.handleServerData ppf now σ1 data = .ok σ1 := by
  simp only [CoreService.payloadWF, Bool.and_eq_true, List.all_eq_true] at hpay
  obtain ⟨hnd, hWFbs⟩ := hpay
  unfold CoreService.handleServerData at hok ⊢
  cases hs : jget data "success" with
  | error u => rw [hs] at hok; simp at hok
  | ok s =>
    rw [hs] at hok
    simp only [except_mapError_ok, except_bind_ok] at hok ⊢
    by_cases hts : truthy s = true
    · rw [if_pos hts] at hok ⊢
      by_cases htb : truthy (getFieldD data "BattleStats") = true
      · rw [if_pos htb] at hok ⊢
        cases hm : CoreService.mergeBattleStats ppf now σ (getFieldD data "BattleStats") with
        | error u => rw [hm] at hok; simp at hok
        | ok final =>
          rw [hm] at hok
          simp only [except_mapError_ok, except_bind_ok, except_pure] at hok
          by_cases htp : truthy (getFieldD data "PlayerInfo") = true
          · rw [if_pos htp] at hok
            cases hn : CoreService.normalizePlayersInfo (getFieldD data "PlayerInfo") with
            | error u => rw [hn] at hok; simp at hok
            | ok piOut =>
              rw [hn] at hok
              simp only [except_mapError_ok, except_bind_ok, except_pure,
                Except.ok.injEq] at hok
              subst hok
              rw [CoreService.mergeBattleStats_idem ppf now σ _ _ final hm hst hnd
                hWFbs rfl]
              simp only [except_mapError_ok, except_bind_ok, except_pure]
              rw [if_pos htp]
          · rw [if_neg htp] at hok
            simp only [except_pure, Except.ok.injEq] at hok
            subst hok
            rw [CoreService.mergeBattleStats_idem ppf now σ _ _ final hm hst hnd
              hWFbs rfl]
            simp only [except_mapError_ok, except_bind_ok, except_pure]
            rw [if_neg htp]
      · rw [if_neg htb] at hok ⊢
        simp only [except_pure, except_bind_ok] at hok ⊢
        by_cases htp : truthy (getFieldD data "PlayerInfo") = true
        · rw [if_pos htp] at hok
          cases hn : CoreService.normalizePlayersInfo (getFieldD data "PlayerInfo") with
          | error u => rw [hn] at hok; simp at hok
          | ok piOut =>
            rw [hn] at hok
            simp only [except_mapError_ok, except_bind_ok, except_pure,
              Except.ok.injEq] at hok
            subst hok
            rw [if_pos htp]
            rfl
        · rw [if_neg htp] at hok
          simp only [except_pure, Except.ok.injEq] at hok
          subst hok
          rw [if_neg htp]
    · rw [if_neg hts] at hok ⊢
      simp only [except_pure, Except.ok.injEq] at hok
      subst hok
      rfl

def c3Player : JVal :=
  .obj [("damage", .num (some 100)), ("kills", .num (some 2)), ("points", .num (some 150)), ("name", .str "Vasya"), ("vehicle", .str "T-34")]

def c3Battle : JVal :=
  .obj [("startTime", .num (some 111)), ("duration", .num (some 300)), ("win", .num (some 1)), ("mapName", .str "Karelia"), ("players", .obj [("100", c3Player)])]

def c3Data : JVal :=
  .obj [("success", .bool true), ("BattleStats", .obj [("A", c3Battle)]), ("PlayerInfo", .obj [("100", .str "Vasya")])]

def c3LocalPlayer : Player :=
  { name := .str "Vasya", damage := .num (some 50), kills := .num (some 1), points := .num (some 60), vehicle := .str "T-34" }

def c3LocalBattle : Battle :=
  { startTime := .num (some 111), duration := .num (some 200), win := .num (some (-1)), mapName := .str "Unknown Map", players := [("100", c3LocalPlayer)] }

def c3State : St := { battleStats := [("A", c3LocalBattle)], playersInfo := [] }

def c3MergedPlayer : Player :=
  { name := .str "Vasya", damage := .num (some 100), kills := .num (some 2), points := .num (some 150), vehicle := .str "T-34" }

def c3MergedBattle : Battle :=
  { startTime := .num (some 111), duration := .num (some 300), win := .num (some 1), mapName := .str "Karelia", players := [("100", c3MergedPlayer)] }

def c3Once : St :=
  { battleStats := [("A", c3MergedBattle)], playersInfo := [("100", .str "Vasya")] }

/-- **C3, witness**: a concrete well-formed store and snapshot; the first
reconcile merges arena `"A"` (max-damage 100, duration 300, win 1, mapName
backfilled), and by the claim theorem the second reconcile of the same
snapshot returns that state unchanged. -/
theorem C3_witness :
    CoreService.handleServerData 5 999 c3State c3Data = .ok c3Once ∧
    CoreService.stateWF c3State = true ∧
    CoreService.payloadWF c3Data = true ∧
    CoreService.handleServerData 5 999 c3Once c3Data = .ok c3Once :=
  ⟨by rfl, by rfl, by rfl,
   C3_idempotentReconcile 5 999 c3State c3Once c3Data (by rfl) (by rfl) (by rfl)⟩
